import Mathlib

/-!
Verification development for the NganwitPTK27 client-side caching and
data-aggregation layer (DataService, CompetitionManager, GLOBAL_CACHE and the
configuration helpers).  JavaScript values are shallowly embedded: strings stay
strings, absent or null fields become `Option`, epoch-millisecond timestamps
become `Nat`, and fallible operations return `Except` or `Option`.  The remote
endpoints are modelled as an environment mapping each request to its outcome.
-/

/-! ## Configuration constants (src/unnamed/part_000, CONFIG) -/

/-- CONFIG.CACHE.TIMEOUT: one hour in milliseconds. -/
def cacheTimeout : Nat := 60 * 60 * 1000

/-- CONFIG.APP.VERSION. -/
def appVersion : String := "2.0.0"

/-- CONFIG.API.SCIENCE_URL (abbreviated; only identity of the URL matters). -/
def scienceUrl : String := "SCIENCE_URL"

/-- CONFIG.API.GEM_URL. -/
def gemUrl : String := "GEM_URL"

/-- CONFIG.API.BASE_URL (legacy fallback). -/
def baseUrl : String := "BASE_URL"

/-- An award configuration from CONFIG.AWARDS (id, Thai display name, sort
rank, color, icon). -/
structure AwardConfig where
  id : String
  name : String
  rank : Nat
  color : String
  icon : String
deriving Repr, DecidableEq

/-- CONFIG.AWARDS.CHAMPION. -/
def awardChampion : AwardConfig := ⟨"champion", "ชนะเลิศ", 1, "#d4af37", "🥇"⟩

/-- CONFIG.AWARDS.FIRST_RUNNER. -/
def awardFirstRunner : AwardConfig :=
  ⟨"first-runner", "รองชนะเลิศอันดับ 1", 2, "#c0c0c0", "🥈"⟩

/-- CONFIG.AWARDS.SECOND_RUNNER. -/
def awardSecondRunner : AwardConfig :=
  ⟨"second-runner", "รองชนะเลิศอันดับ 2", 3, "#cd7f32", "🥉"⟩

/-- CONFIG.AWARDS.THIRD_RUNNER. -/
def awardThirdRunner : AwardConfig :=
  ⟨"third-runner", "รองชนะเลิศอันดับ 3", 4, "#8b4513", "🏆"⟩

/-- CONFIG.AWARDS.HONORABLE. -/
def awardHonorable : AwardConfig := ⟨"honorable", "ชมเชย", 5, "#3498db", "🏅"⟩

/-- CONFIG.AWARDS.PARTICIPANT. -/
def awardParticipant : AwardConfig := ⟨"participant", "เข้าร่วม", 6, "#95a5a6", "🎖️"⟩

/-- The key set of the awardMap literal inside getAwardConfig
(src/unnamed/part_000, lines 404-414), in source order. -/
def awardMapKeys : List (String × AwardConfig) :=
  [("ชนะเลิศ", awardChampion),
   ("รองชนะเลิศอันดับ 1", awardFirstRunner),
   ("รองชนะเลิศอันดับ1", awardFirstRunner),
   ("รองชนะเลิศอันดับ 2", awardSecondRunner),
   ("รองชนะเลิศอันดับ2", awardSecondRunner),
   ("รองชนะเลิศอันดับ 3", awardThirdRunner),
   ("รองชนะเลิศอันดับ3", awardThirdRunner),
   ("ชมเชย", awardHonorable),
   ("เข้าร่วม", awardParticipant)]

/-- getAwardConfig (src/unnamed/part_000, lines 401-417): a falsy (empty)
award name yields null; otherwise the awardMap entry, defaulting to
CONFIG.AWARDS.PARTICIPANT for names not in the map. -/
def getAwardConfig (awardName : String) : Option AwardConfig :=
  if awardName = "" then none
  else some (((awardMapKeys.lookup awardName).getD awardParticipant))

/-! ## String-level JavaScript helpers -/

/-- Value of the JavaScript coalescing expression `a ?? b` over possibly
absent string fields: none models both null and undefined. -/
def jsCoalesce (a b : Option String) : Option String :=
  match a with
  | some v => some v
  | none => b

/-- String(v) for a possibly absent field; String(undefined) is the literal
text undefined.  The pipeline only applies this to fields that passed
validation (present and non-empty), where it is the identity. -/
def jsStr (o : Option String) : String :=
  match o with
  | some s => s
  | none => "undefined"

/-- JavaScript string truthiness: a string is truthy iff non-empty. -/
def jsTruthy (s : String) : Bool := s ≠ ""

/-- String.prototype.trim: drop leading and trailing whitespace.  Written
directly on the character list so that it evaluates inside the kernel. -/
def jsTrim (s : String) : String :=
  String.mk (((s.data.dropWhile Char.isWhitespace).reverse.dropWhile
    Char.isWhitespace).reverse)

/-- String.prototype.toLowerCase, character by character. -/
def jsToLower (s : String) : String :=
  String.mk (s.data.map Char.toLower)

/-- Accumulate the numeric value of a leading run of decimal digits. -/
def takeDigitsVal (acc : Nat) : List Char → Nat
  | [] => acc
  | c :: cs => if c.isDigit then takeDigitsVal (acc * 10 + (c.toNat - 48)) cs else acc

/-- Number.parseInt(s, 10): skip leading whitespace, read an optional sign and
a maximal run of decimal digits; none models NaN (no digit found). -/
def jsParseInt (s : String) : Option Int :=
  match s.data.dropWhile Char.isWhitespace with
  | [] => none
  | '-' :: rest =>
    match rest with
    | c :: _ => if c.isDigit then some (-(takeDigitsVal 0 (rest.takeWhile Char.isDigit) : Int)) else none
    | [] => none
  | '+' :: rest =>
    match rest with
    | c :: _ => if c.isDigit then some ((takeDigitsVal 0 (rest.takeWhile Char.isDigit) : Int)) else none
    | [] => none
  | c :: cs =>
    if c.isDigit then some ((takeDigitsVal 0 ((c :: cs).takeWhile Char.isDigit) : Int)) else none

/-- String.prototype.localeCompare with the Thai locale, used as the final
tie-breaker on school names.  The exact locale ordering between distinct
strings is outside the embedding; this stand-in is an arbitrary total order
that, like every locale comparison, returns 0 on identical strings.  No
theorem below depends on its ordering of distinct strings. -/
def localeCompareTh (a b : String) : Int :=
  if a = b then 0 else if a < b then -1 else 1

/-! ## Global cache model (src/unnamed/part_000, GLOBAL_CACHE) -/

/-- A raw competition record as returned by a category endpoint.  Fields are
Option String: none models an absent, null or undefined property; numeric
spreadsheet cells are carried as their decimal text. -/
structure RawCompetition where
  id : Option String := none
  name : Option String := none
  category : Option String := none
  level : Option String := none
  status : Option String := none
  description : Option String := none
  participantCount : Option String := none
  icon : Option String := none
  date : Option String := none
deriving Repr, DecidableEq

/-- A raw result record as returned by getResults.  The *Th fields carry the
Thai-named source columns: schoolTh is โรงเรียน, awardTh is รางวัล, levelTh is
ระดับ, typeTh is ประเภท, rankTh is ลำดับที่, certTh1 is ดาวโหลดน์เกียรติบัตร and
certTh2 is ดาวโหลดเกียรติบัตร. -/
structure RawResult where
  rank : Option String := none
  rankTh : Option String := none
  level : Option String := none
  levelTh : Option String := none
  type : Option String := none
  typeTh : Option String := none
  award : Option String := none
  awardTh : Option String := none
  school : Option String := none
  schoolTh : Option String := none
  certificate_url : Option String := none
  certificateUrl : Option String := none
  certTh1 : Option String := none
  certTh2 : Option String := none
  participants : Option String := none
  coach : Option String := none
  project_title : Option String := none
  notes : Option String := none
deriving Repr, DecidableEq

/-- A value held by a per-category error slot: an Error object carrying its
message, or a plain object with no message.  The plain form is what
JSON.parse yields for a serialized Error, because message and stack are
non-enumerable own properties and JSON.stringify drops them. -/
inductive ErrVal where
  | err (message : String)
  | plain
deriving Repr, DecidableEq

/-- Per-category error slots (the errors object built by
DataService.fetchAllCompetitions); none models null, an entry carries the
rejection value. -/
structure CatErrors where
  science : Option ErrVal := none
  gem : Option ErrVal := none
deriving Repr, DecidableEq

/-- The object resolved by DataService.fetchAllCompetitions: both raw category
lists plus the per-category error slots. -/
structure CompetitionsFetch where
  science : List RawCompetition := []
  gem : List RawCompetition := []
  errors : CatErrors := {}
deriving Repr, DecidableEq

/-- GLOBAL_CACHE: competitions object (null until a load), results Map keyed
by competition id (modelled as an insertion-ordered association list),
lastUpdated epoch-millisecond timestamp and the isLoaded flag. -/
structure GlobalCache where
  competitions : Option CompetitionsFetch := none
  results : List (String × List RawResult) := []
  lastUpdated : Option Nat := none
  isLoaded : Bool := false
deriving Repr, DecidableEq

/-- isCacheValid (src/unnamed/part_000, lines 368-372): isLoaded, a truthy
lastUpdated (a number, non-null and non-zero) and age strictly below
CONFIG.CACHE.TIMEOUT.  now is the value of Date.now(); Nat subtraction
truncates at zero, which agrees with the JavaScript comparison because a
negative age is also below the positive timeout. -/
def isCacheValid (now : Nat) (c : GlobalCache) : Bool :=
  c.isLoaded &&
    (match c.lastUpdated with
     | some t => decide (t ≠ 0) && decide (now - t < cacheTimeout)
     | none => false)

/-- Timestamps that can actually occur: lastUpdated is either null or a value
of Date.now(), which is strictly positive. -/
def RealisticStamp (c : GlobalCache) : Prop :=
  ∀ t, c.lastUpdated = some t → 0 < t

/-- C3: over every snapshot whose stored timestamp is a genuine Date.now()
value (strictly positive; the claim speaks of elapsed time since lastUpdated,
which presupposes such a stamp), isCacheValid is true iff the loaded flag is
set and the elapsed time since lastUpdated is under the TTL; moreover with the
loaded flag set, a stamp of now - (TTL + 1) is invalid and a stamp of
now - (TTL - 1) is valid. -/
theorem isCacheValid_iff_loaded_and_fresh
    (now : Nat) (c : GlobalCache) (h : RealisticStamp c) :
    (isCacheValid now c = true ↔
      c.isLoaded = true ∧ ∃ t, c.lastUpdated = some t ∧ now - t < cacheTimeout) ∧
    (∀ comps res, cacheTimeout + 1 ≤ now →
      isCacheValid now ⟨comps, res, some (now - (cacheTimeout + 1)), true⟩ = false ∧
      isCacheValid now ⟨comps, res, some (now - (cacheTimeout - 1)), true⟩ = true) := by
  constructor
  · cases c with
    | mk comps res lu loaded =>
      cases lu with
      | none => simp [isCacheValid]
      | some t =>
        have ht : 0 < t := h t rfl
        simp only [isCacheValid, Bool.and_eq_true, decide_eq_true_eq]
        constructor
        · rintro ⟨h1, h2, h3⟩
          exact ⟨h1, t, rfl, h3⟩
        · rintro ⟨h1, t', ht', h3⟩
          cases ht'
          exact ⟨h1, by omega, h3⟩
  · intro comps res hnow
    have hct : cacheTimeout = 3600000 := rfl
    constructor
    · have hstale : ¬ (now - (now - (cacheTimeout + 1)) < cacheTimeout) := by omega
      simp [isCacheValid, hstale]
    · have hne : now - (cacheTimeout - 1) ≠ 0 := by omega
      have hfresh : now - (now - (cacheTimeout - 1)) < cacheTimeout := by omega
      simp [isCacheValid, hne, hfresh]

/-- Witness for C3 at a concrete snapshot: now = 10000000, stamp 9000000,
loaded; the snapshot is valid and both boundary scenarios evaluate as claimed. -/
theorem isCacheValid_iff_loaded_and_fresh_witness :
    isCacheValid 10000000 ⟨none, [], some 9000000, true⟩ = true ∧
    isCacheValid 10000000 ⟨none, [], some (10000000 - (cacheTimeout + 1)), true⟩ = false := by
  have h := isCacheValid_iff_loaded_and_fresh 10000000 ⟨none, [], some 9000000, true⟩
    (by intro t ht; cases ht; decide)
  constructor
  · exact h.1.mpr ⟨rfl, 9000000, rfl, by decide⟩
  · exact (h.2 none [] (by decide)).1

/-! ## Aggregator: competition validation and normalization
(src/unnamed/part_001, CompetitionManager) -/

/-- Truthiness of a possibly absent string field (absent, null, undefined and
the empty string are falsy). -/
def jsOptTruthy (o : Option String) : Bool :=
  match o with
  | some s => jsTruthy s
  | none => false

/-- CompetitionManager.getDefaultIcon. -/
def getDefaultIcon (category : String) : String :=
  if category = "gem" then "💎" else "🔬"

/-- A normalized competition as produced by
CompetitionManager.normalizeCompetition. -/
structure NormCompetition where
  id : String
  name : String
  category : String
  level : String
  status : String
  description : String
  participantCount : Int
  icon : String
  date : Option String
  orderIndex : Option Nat
deriving Repr, DecidableEq

/-- CompetitionManager.validateCompetition (lines 155-169): both required
fields id and name must be present (own property, not null or undefined) and
not the empty string. -/
def validateCompetition (c : RawCompetition) : Bool :=
  (match c.id with | some s => jsTruthy s | none => false) &&
  (match c.name with | some s => jsTruthy s | none => false)

/-- CompetitionManager.normalizeCompetition (lines 177-190).  The __orderIndex
property spliced in by processCompetitions is passed as the orderIndex
argument (none models the typeof check failing on a record without it). -/
def normalizeCompetition (c : RawCompetition) (orderIndex : Option Nat)
    (category : String) : NormCompetition :=
  { id := jsTrim (jsStr c.id)
    name := jsTrim (jsStr c.name)
    category :=
      if jsTruthy category then category
      else jsTrim (jsToLower (if jsOptTruthy c.category then jsStr c.category else "science"))
    level := if jsOptTruthy c.level then jsTrim (jsStr c.level) else "ทุกระดับ"
    status := jsTrim (jsToLower (if jsOptTruthy c.status then jsStr c.status else "completed"))
    description := if jsOptTruthy c.description then jsTrim (jsStr c.description) else ""
    participantCount := ((c.participantCount.bind jsParseInt).getD 0)
    icon := if jsOptTruthy c.icon then jsStr c.icon else getDefaultIcon category
    date := if jsOptTruthy c.date then c.date else none
    orderIndex := orderIndex }

/-- List.map with the element index, mirroring the two-argument callback of
Array.prototype.map. -/
def mapWithIndex (f : Nat → α → β) : Nat → List α → List β
  | _, [] => []
  | i, c :: cs => f i c :: mapWithIndex f (i + 1) cs

/-- CompetitionManager.processCompetitions (lines 133-148): filter by
validateCompetition, then normalize with the position in the filtered list as
__orderIndex.  The keepSheetOrder constant in the source is true, so the dead
participant-count sorting branch never runs and is not modelled. -/
def processCompetitions (rawCompetitions : List RawCompetition)
    (category : String) : List NormCompetition :=
  mapWithIndex (fun idx c => normalizeCompetition c (some idx) category) 0
    (rawCompetitions.filter validateCompetition)

/-- The competition-holding part of a CompetitionManager instance: the three
collections, the per-category error slots and the isInitialized flag (field
initDone here). -/
structure ManagerView where
  science : List NormCompetition := []
  gem : List NormCompetition := []
  all : List NormCompetition := []
  errors : CatErrors := {}
  initDone : Bool := false
deriving Repr, DecidableEq

/-- CompetitionManager.loadAllCompetitions (lines 107-125) applied to the
object resolved by DataService.fetchAllCompetitions: process each category,
concatenate into the all collection and keep the error slots. -/
def mgrLoadAllCompetitions (f : CompetitionsFetch) : ManagerView :=
  let sci := processCompetitions f.science "science"
  let gm := processCompetitions f.gem "gem"
  { science := sci, gem := gm, all := sci ++ gm, errors := f.errors, initDone := false }

/-- CompetitionManager.getAllCompetitions (lines 205-207).  The source spreads
into a fresh array; in this pure model the copy is the value itself (the
aliasing behaviour is modelled separately with an explicit heap). -/
def getAllCompetitions (m : ManagerView) : List NormCompetition :=
  m.all

/-- CompetitionManager.getCompetitionsByCategory (lines 214-225): falsy
category gives []; academic maps to gem; otherwise the property named by the
lower-cased trimmed category among the science, gem and all collections, else
[].  Prototype-chain property names (which would throw in JavaScript when
spread) also give [] here; no competition record is produced either way. -/
def getCompetitionsByCategory (m : ManagerView) (category : String) :
    List NormCompetition :=
  if category = "" then []
  else
    let normalizedCategory := jsTrim (jsToLower category)
    if normalizedCategory = "academic" then m.gem
    else if normalizedCategory = "science" then m.science
    else if normalizedCategory = "gem" then m.gem
    else if normalizedCategory = "all" then m.all
    else []

/-- CompetitionManager.getCompetitionById (lines 232-237): falsy id gives
null, otherwise the first competition in the all collection whose id equals
the trimmed argument. -/
def getCompetitionById (m : ManagerView) (competitionId : String) :
    Option NormCompetition :=
  if competitionId = "" then none
  else m.all.find? (fun comp => comp.id == jsTrim competitionId)

/-- Every element of mapWithIndex is the image of an element of the list. -/
theorem mem_mapWithIndex {f : Nat → α → β} {i : Nat} {l : List α} {b : β}
    (h : b ∈ mapWithIndex f i l) : ∃ j a, a ∈ l ∧ b = f j a := by
  induction l generalizing i with
  | nil => simp [mapWithIndex] at h
  | cons x xs ih =>
    simp only [mapWithIndex, List.mem_cons] at h
    rcases h with h | h
    · exact ⟨i, x, List.mem_cons_self x xs, h⟩
    · rcases ih h with ⟨j, a, ha, hb⟩
      exact ⟨j, a, List.mem_cons_of_mem _ ha, hb⟩

/-- mapWithIndex preserves length. -/
theorem length_mapWithIndex (f : Nat → α → β) (i : Nat) (l : List α) :
    (mapWithIndex f i l).length = l.length := by
  induction l generalizing i with
  | nil => rfl
  | cons x xs ih => simp [mapWithIndex, ih]

/-- validateCompetition accepts exactly the records with a present, non-empty
id and a present, non-empty name. -/
theorem validateCompetition_iff (r : RawCompetition) :
    validateCompetition r = true ↔
      ((∃ s, r.id = some s ∧ s ≠ "") ∧ (∃ s, r.name = some s ∧ s ≠ "")) := by
  cases hid : r.id <;> cases hname : r.name <;>
    simp [validateCompetition, jsTruthy, hid, hname]

/-- C5: after loading raw category lists, every record lacking a non-empty id
or a non-empty name is excluded from every output collection: everything in
getAllCompetitions is the normalization of a validated source record, the
output length counts exactly the valid records, and the category listings and
the id lookup only ever surface elements of getAllCompetitions. -/
theorem invalid_competitions_excluded_everywhere
    (sci gemL : List RawCompetition) (errs : CatErrors) :
    (∀ r, validateCompetition r = true ↔
      ((∃ s, r.id = some s ∧ s ≠ "") ∧ (∃ s, r.name = some s ∧ s ≠ ""))) ∧
    (∀ c, c ∈ getAllCompetitions (mgrLoadAllCompetitions ⟨sci, gemL, errs⟩) →
      ∃ r, validateCompetition r = true ∧ (r ∈ sci ∨ r ∈ gemL) ∧
        ∃ i cat, c = normalizeCompetition r (some i) cat) ∧
    ((getAllCompetitions (mgrLoadAllCompetitions ⟨sci, gemL, errs⟩)).length =
      (sci.filter validateCompetition).length +
        (gemL.filter validateCompetition).length) ∧
    (∀ cat c, c ∈ getCompetitionsByCategory (mgrLoadAllCompetitions ⟨sci, gemL, errs⟩) cat →
      c ∈ getAllCompetitions (mgrLoadAllCompetitions ⟨sci, gemL, errs⟩)) ∧
    (∀ i c, getCompetitionById (mgrLoadAllCompetitions ⟨sci, gemL, errs⟩) i = some c →
      c ∈ getAllCompetitions (mgrLoadAllCompetitions ⟨sci, gemL, errs⟩)) := by
  refine ⟨validateCompetition_iff, ?_, ?_, ?_, ?_⟩
  · intro c hc
    simp only [getAllCompetitions, mgrLoadAllCompetitions, processCompetitions,
      List.mem_append] at hc
    rcases hc with hc | hc
    · rcases mem_mapWithIndex hc with ⟨j, a, ha, hb⟩
      rcases List.mem_filter.mp ha with ⟨hmem, hval⟩
      exact ⟨a, hval, Or.inl hmem, j, "science", hb⟩
    · rcases mem_mapWithIndex hc with ⟨j, a, ha, hb⟩
      rcases List.mem_filter.mp ha with ⟨hmem, hval⟩
      exact ⟨a, hval, Or.inr hmem, j, "gem", hb⟩
  · simp [getAllCompetitions, mgrLoadAllCompetitions, processCompetitions,
      length_mapWithIndex]
  · intro cat c hc
    simp only [getCompetitionsByCategory] at hc
    split at hc
    · cases hc
    · simp only [getAllCompetitions, mgrLoadAllCompetitions] at *
      split at hc
      · exact List.mem_append_right _ hc
      · split at hc
        · exact List.mem_append_left _ hc
        · split at hc
          · exact List.mem_append_right _ hc
          · split at hc
            · exact hc
            · cases hc
  · intro i c hc
    simp only [getCompetitionById] at hc
    split at hc
    · cases hc
    · exact List.mem_of_find?_eq_some hc

/-- Witness for C5: a list with one valid and one id-less record; the valid
record passes validation, the invalid one fails, and the loaded manager
exposes exactly one competition, which has a validated preimage. -/
theorem invalid_competitions_excluded_everywhere_witness :
    validateCompetition { id := some "c1", name := some "Comp" } = true ∧
    (getAllCompetitions (mgrLoadAllCompetitions
      ⟨[{ id := some "c1", name := some "Comp" }, { name := some "Bad" }], [], {}⟩)).length = 1 ∧
    (∃ r, validateCompetition r = true ∧
      (r ∈ [({ id := some "c1", name := some "Comp" } : RawCompetition),
            { name := some "Bad" }] ∨ r ∈ ([] : List RawCompetition)) ∧
      ∃ i cat, normalizeCompetition { id := some "c1", name := some "Comp" }
        (some 0) "science" = normalizeCompetition r (some i) cat) := by
  have h := invalid_competitions_excluded_everywhere
    [{ id := some "c1", name := some "Comp" }, { name := some "Bad" }] [] {}
  refine ⟨?_, ?_, ?_⟩
  · exact (h.1 _).mpr ⟨⟨"c1", rfl, by decide⟩, ⟨"Comp", rfl, by decide⟩⟩
  · have := h.2.2.1
    simpa using this
  · exact h.2.1 _ (by decide)

/-! ## Aggregator: result validation, normalization and sorting
(src/unnamed/part_001, lines 310-394) -/

/-- A normalized result row as produced by CompetitionManager.normalizeResult. -/
structure NormResult where
  competitionId : String
  rank : Option Int
  level : String
  type : String
  award : String
  school : String
  participants : String
  coach : String
  certificateUrl : String
  projectTitle : String
  notes : String
deriving Repr, DecidableEq

/-- The test `v && String(v).trim() !== ''` applied to a coalesced field: a
present, truthy value whose trimmed text is non-empty. -/
def hasNonBlank (o : Option String) : Bool :=
  match o with
  | some s => jsTruthy s && jsTruthy (jsTrim s)
  | none => false

/-- CompetitionManager.validateResult (lines 327-333): keep a row iff the
school (English field, falling back to the Thai column) or the award is
non-blank. -/
def validateResult (result : RawResult) : Bool :=
  hasNonBlank (jsCoalesce result.school result.schoolTh) ||
  hasNonBlank (jsCoalesce result.award result.awardTh)

/-- CompetitionManager.normalizeResult (lines 341-366). -/
def normalizeResult (result : RawResult) (competitionId : String) : NormResult :=
  let level := (jsCoalesce result.level result.levelTh).getD ""
  let type := (jsCoalesce result.type result.typeTh).getD ""
  let award := (jsCoalesce result.award result.awardTh).getD ""
  let school := (jsCoalesce result.school result.schoolTh).getD ""
  let certTh := (jsCoalesce result.certTh1 result.certTh2).getD ""
  let certEn := (jsCoalesce result.certificate_url result.certificateUrl).getD ""
  { competitionId := competitionId
    rank := jsParseInt ((jsCoalesce result.rankTh result.rank).getD "")
    level := jsTrim level
    type := jsTrim type
    award := jsTrim award
    school := jsTrim school
    participants := if jsOptTruthy result.participants then jsTrim (jsStr result.participants) else "-"
    coach := if jsOptTruthy result.coach then jsTrim (jsStr result.coach) else "-"
    certificateUrl := jsTrim (if jsTruthy certEn then certEn else if jsTruthy certTh then certTh else "")
    projectTitle := if jsOptTruthy result.project_title then jsTrim (jsStr result.project_title) else ""
    notes := if jsOptTruthy result.notes then jsTrim (jsStr result.notes) else "" }

/-- The award-then-school tail of CompetitionManager.compareResults
(lines 385-393): compare award configurations (an entry with a configuration
precedes one without), then school names with the Thai locale. -/
def compareByAwardThenSchool (a b : NormResult) : Int :=
  match getAwardConfig a.award, getAwardConfig b.award with
  | some cA, some cB =>
    if cA.rank ≠ cB.rank then (cA.rank : Int) - (cB.rank : Int)
    else localeCompareTh a.school b.school
  | some _, none => -1
  | none, some _ => 1
  | none, none => localeCompareTh a.school b.school

/-- CompetitionManager.compareResults (lines 374-394).  toNum maps the rank
of a normalized entity to a number, a null rank becoming Infinity (the entity
has no Thai-named property, so Number(undefined) is NaN): a missing rank sorts
last.  Two missing ranks are both Infinity, which is equal to itself, so they
fall through to the award comparison.  The infinite differences returned by
the source collapse here to -1 and 1: only the sign is observable through the
sort. -/
def compareResults (a b : NormResult) : Int :=
  match a.rank, b.rank with
  | some ra, some rb => if ra ≠ rb then ra - rb else compareByAwardThenSchool a b
  | some _, none => -1
  | none, some _ => 1
  | none, none => compareByAwardThenSchool a b

/-- Stable insertion into a sorted list: x goes before the first element that
does not compare strictly before it. -/
def jsInsert (cmp : α → α → Int) (x : α) : List α → List α
  | [] => [x]
  | y :: ys => if cmp x y ≤ 0 then x :: y :: ys else y :: jsInsert cmp x ys

/-- Array.prototype.sort with a comparator.  ECMA-262 requires the sort to be
stable; for a consistent comparator every stable algorithm yields the same
output, and stable insertion sort is the model used here. -/
def jsSortStable (cmp : α → α → Int) : List α → List α
  | [] => []
  | x :: xs => jsInsert cmp x (jsSortStable cmp xs)

/-- CompetitionManager.processResults (lines 310-320) on an array payload:
filter by validateResult, normalize, sort by compareResults.  (A non-array
payload returns [] in the source; the embedding takes lists only.) -/
def processResults (rawResults : List RawResult) (competitionId : String) :
    List NormResult :=
  jsSortStable compareResults
    ((rawResults.filter validateResult).map (fun r => normalizeResult r competitionId))

/-- Inserting is a permutation of consing. -/
theorem jsInsert_perm (cmp : α → α → Int) (x : α) (l : List α) :
    (jsInsert cmp x l).Perm (x :: l) := by
  induction l with
  | nil => exact List.Perm.refl _
  | cons y ys ih =>
    simp only [jsInsert]
    split
    · exact List.Perm.refl _
    · exact (List.Perm.cons y ih).trans (List.Perm.swap x y ys)

/-- The stable sort is a permutation of its input. -/
theorem jsSortStable_perm (cmp : α → α → Int) (l : List α) :
    (jsSortStable cmp l).Perm l := by
  induction l with
  | nil => exact List.Perm.refl _
  | cons x xs ih =>
    exact (jsInsert_perm cmp x (jsSortStable cmp xs)).trans (List.Perm.cons x ih)

/-- hasNonBlank holds exactly on present values whose trimmed text is
non-empty. -/
theorem hasNonBlank_iff (o : Option String) :
    hasNonBlank o = true ↔ ∃ s, o = some s ∧ jsTrim s ≠ "" := by
  cases o with
  | none => simp [hasNonBlank]
  | some s =>
    simp only [hasNonBlank, Bool.and_eq_true, jsTruthy, decide_eq_true_eq]
    constructor
    · rintro ⟨-, h2⟩
      exact ⟨s, rfl, h2⟩
    · rintro ⟨s', hs', h2⟩
      cases hs'
      refine ⟨?_, h2⟩
      rintro rfl
      exact h2 rfl

/-- C6: a raw result row is retained by processResults iff its school (with
the Thai-column fallback) or its award is non-blank after trimming; the
normalized list is exactly the normalization of the retained rows up to the
sorting permutation; a row with empty school but award ชนะเลิศ is kept and a
row with empty school and empty award is dropped. -/
theorem result_retained_iff_school_or_award (raws : List RawResult) (cid : String) :
    (∀ r, validateResult r = true ↔
      ((∃ s, jsCoalesce r.school r.schoolTh = some s ∧ jsTrim s ≠ "") ∨
       (∃ s, jsCoalesce r.award r.awardTh = some s ∧ jsTrim s ≠ ""))) ∧
    (processResults raws cid).Perm
      ((raws.filter validateResult).map (fun r => normalizeResult r cid)) ∧
    validateResult { school := some "", award := some "ชนะเลิศ" } = true ∧
    (processResults [{ school := some "", award := some "ชนะเลิศ" }] cid).length = 1 ∧
    validateResult { school := some "", award := some "" } = false ∧
    processResults [{ school := some "", award := some "" }] cid = [] := by
  refine ⟨?_, jsSortStable_perm _ _, by decide, rfl, by decide, rfl⟩
  intro r
  simp only [validateResult, Bool.or_eq_true, hasNonBlank_iff]

/-- Witness for C6: the retention test evaluated through the theorem on a
concrete row with a blank school and the award ชนะเลิศ. -/
theorem result_retained_iff_school_or_award_witness :
    (∃ s, jsCoalesce (some "") (none : Option String) = some s ∧ jsTrim s ≠ "") ∨
    (∃ s, jsCoalesce (some "ชนะเลิศ") (none : Option String) = some s ∧ jsTrim s ≠ "") :=
  (result_retained_iff_school_or_award [] "x").1
    { school := some "", award := some "ชนะเลิศ" } |>.mp (by decide)

/-- A normalized result with the given rank, award and school and neutral
remaining fields, used for concrete comparator inputs. -/
def mkSampleResult (rank : Option Int) (award school : String) : NormResult :=
  { competitionId := "comp", rank := rank, level := "", type := "", award := award,
    school := school, participants := "-", coach := "-", certificateUrl := "",
    projectTitle := "", notes := "" }

/-- With equal numeric ranks, compareResults reduces to the award-then-school
comparison. -/
theorem compareResults_eq_award_of_rank_tie (a b : NormResult) (n : Int)
    (ha : a.rank = some n) (hb : b.rank = some n) :
    compareResults a b = compareByAwardThenSchool a b := by
  simp [compareResults, ha, hb]

/-- Distinct numeric ranks decide the comparison: the difference is returned. -/
theorem compareResults_of_ranks (a b : NormResult) (x y : Int)
    (ha : a.rank = some x) (hb : b.rank = some y) (hxy : x ≠ y) :
    compareResults a b = x - y := by
  simp [compareResults, ha, hb, hxy]

/-- A numeric rank sorts before a missing rank. -/
theorem compareResults_some_none (a b : NormResult) (x : Int)
    (ha : a.rank = some x) (hb : b.rank = none) : compareResults a b = -1 := by
  simp [compareResults, ha, hb]

/-- A missing rank sorts after a numeric rank. -/
theorem compareResults_none_some (a b : NormResult) (y : Int)
    (ha : a.rank = none) (hb : b.rank = some y) : compareResults a b = 1 := by
  simp [compareResults, ha, hb]

/-- Two missing ranks with the same award configuration and the same school
compare equal. -/
theorem compareResults_none_none_tie (a b : NormResult)
    (ha : a.rank = none) (hb : b.rank = none)
    (hAw : getAwardConfig a.award = getAwardConfig b.award)
    (hSch : a.school = b.school) : compareResults a b = 0 := by
  have hB : getAwardConfig b.award = getAwardConfig a.award := hAw.symm
  simp only [compareResults, ha, hb]
  cases h : getAwardConfig a.award with
  | none =>
    rw [h] at hB
    simp [compareByAwardThenSchool, h, hB, localeCompareTh, hSch]
  | some c =>
    rw [h] at hB
    simp [compareByAwardThenSchool, h, hB, localeCompareTh, hSch]

/-- C7 counterexample: with ranks tied, an entry whose award string is not a
recognized tier name does not sort after an entry carrying the recognized
participant tier.  getAwardConfig maps the unrecognized non-empty award to the
participant configuration, so the two compare equal (same school) and a stable
sort keeps the unrecognized entry in front when it came first. -/
theorem compareResults_unrecognized_ties_with_participant :
    awardMapKeys.lookup "รางวัลพิเศษ" = none ∧
    awardMapKeys.lookup "เข้าร่วม" = some awardParticipant ∧
    compareResults (mkSampleResult (some 1) "เข้าร่วม" "S")
      (mkSampleResult (some 1) "รางวัลพิเศษ" "S") = 0 ∧
    ¬ compareResults (mkSampleResult (some 1) "เข้าร่วม" "S")
      (mkSampleResult (some 1) "รางวัลพิเศษ" "S") < 0 ∧
    jsSortStable compareResults
      [mkSampleResult (some 1) "รางวัลพิเศษ" "S", mkSampleResult (some 1) "เข้าร่วม" "S"] =
      [mkSampleResult (some 1) "รางวัลพิเศษ" "S", mkSampleResult (some 1) "เข้าร่วม" "S"] := by
  decide

/-- C7 (amended): with ranks tied, ordering is by award tier rank ascending
over the configurations assigned by getAwardConfig, where an unrecognized
non-empty award is assigned the participant tier (so it ties with participant
rather than sorting after it) and only a missing (empty) award sorts after
every entry that has an award configuration; in particular a champion entry
sorts before an honorable-mention entry, which sorts before an entry with an
unrecognized award string. -/
theorem tied_rank_award_tier_ordering :
    (∀ a b : NormResult, ∀ n : Int, a.rank = some n → b.rank = some n →
      ∀ cA cB, getAwardConfig a.award = some cA → getAwardConfig b.award = some cB →
        cA.rank < cB.rank → compareResults a b < 0) ∧
    (∀ a b : NormResult, ∀ n : Int, a.rank = some n → b.rank = some n →
      ∀ cA, getAwardConfig a.award = some cA → getAwardConfig b.award = none →
        compareResults a b < 0) ∧
    (∀ a b : NormResult, ∀ n : Int, a.rank = some n → b.rank = some n →
      a.award = "ชนะเลิศ" → b.award = "ชมเชย" → compareResults a b < 0) ∧
    (∀ a b : NormResult, ∀ n : Int, a.rank = some n → b.rank = some n →
      a.award = "ชมเชย" → awardMapKeys.lookup b.award = none → b.award ≠ "" →
      compareResults a b < 0) := by
  have main : ∀ a b : NormResult, ∀ n : Int, a.rank = some n → b.rank = some n →
      ∀ cA cB, getAwardConfig a.award = some cA → getAwardConfig b.award = some cB →
      cA.rank < cB.rank → compareResults a b < 0 := by
    intro a b n ha hb cA cB hA hB hlt
    rw [compareResults_eq_award_of_rank_tie a b n ha hb]
    simp only [compareByAwardThenSchool, hA, hB]
    rw [if_pos (Nat.ne_of_lt hlt)]
    omega
  refine ⟨main, ?_, ?_, ?_⟩
  · intro a b n ha hb cA hA hB
    rw [compareResults_eq_award_of_rank_tie a b n ha hb]
    simp [compareByAwardThenSchool, hA, hB]
  · intro a b n ha hb hA hB
    refine main a b n ha hb awardChampion awardHonorable ?_ ?_ (by decide)
    · rw [hA]; decide
    · rw [hB]; decide
  · intro a b n ha hb hA hBlook hBne
    have hB : getAwardConfig b.award = some awardParticipant := by
      simp [getAwardConfig, hBne, hBlook]
    refine main a b n ha hb awardHonorable awardParticipant ?_ hB (by decide)
    rw [hA]; decide

/-- Witness for C7: a champion entry compares before an honorable-mention
entry at the tied rank 2. -/
theorem tied_rank_award_tier_ordering_witness :
    compareResults (mkSampleResult (some 2) "ชนะเลิศ" "A")
      (mkSampleResult (some 2) "ชมเชย" "B") < 0 :=
  tied_rank_award_tier_ordering.2.2.1 _ _ 2 rfl rfl rfl rfl

/-- Concrete raw rows whose parsed ranks are [3, null, 1, null]: the ranked
rows carry only a school, the null-ranked rows carry distinct awards. -/
def rawRankedA : RawResult := { rank := some "3", school := some "SchoolA" }

/-- Null-ranked row with award ชมเชย (honorable mention). -/
def rawNullB : RawResult := { school := some "SchoolB", award := some "ชมเชย" }

/-- Ranked row with rank 1. -/
def rawRankedC : RawResult := { rank := some "1", school := some "SchoolC" }

/-- Null-ranked row with award ชนะเลิศ (champion), listed after rawNullB. -/
def rawNullD : RawResult := { school := some "SchoolD", award := some "ชนะเลิศ" }

/-- C8 counterexample: on rows with parsed ranks [3, null, 1, null], the
normalized ordering does put the ranks in order [1, 3, null, null], but the
two null-ranked rows do not retain their original relative order: both have
rank Infinity under toNum, which compares equal to itself, so the tie falls
through to the award comparison, and the champion row (originally last)
overtakes the honorable-mention row. -/
theorem processResults_null_ranks_reordered :
    ((processResults [rawRankedA, rawNullB, rawRankedC, rawNullD] "comp").map
      NormResult.rank = [some 1, some 3, none, none]) ∧
    processResults [rawRankedA, rawNullB, rawRankedC, rawNullD] "comp" =
      [normalizeResult rawRankedC "comp", normalizeResult rawRankedA "comp",
       normalizeResult rawNullD "comp", normalizeResult rawNullB "comp"] ∧
    processResults [rawRankedA, rawNullB, rawRankedC, rawNullD] "comp" ≠
      [normalizeResult rawRankedC "comp", normalizeResult rawRankedA "comp",
       normalizeResult rawNullB "comp", normalizeResult rawNullD "comp"] := by
  decide

/-- C8 (amended): for retained rows with parsed ranks [3, null, 1, null]
where the two null-ranked rows tie completely under the comparator (same
award configuration and same school), processResults orders them
[1, 3, null, null] with the null-ranked rows in their original relative
order.  Without that tie the rank tie is broken by award tier and then by
school, which can reorder the null-ranked rows. -/
theorem processResults_ranks_sorted_nulls_last
    (r1 r2 r3 r4 : RawResult) (cid : String)
    (hv1 : validateResult r1 = true) (hv2 : validateResult r2 = true)
    (hv3 : validateResult r3 = true) (hv4 : validateResult r4 = true)
    (h1 : (normalizeResult r1 cid).rank = some 3)
    (h2 : (normalizeResult r2 cid).rank = none)
    (h3 : (normalizeResult r3 cid).rank = some 1)
    (h4 : (normalizeResult r4 cid).rank = none)
    (hAw : getAwardConfig (normalizeResult r2 cid).award =
      getAwardConfig (normalizeResult r4 cid).award)
    (hSch : (normalizeResult r2 cid).school = (normalizeResult r4 cid).school) :
    processResults [r1, r2, r3, r4] cid =
      [normalizeResult r3 cid, normalizeResult r1 cid,
       normalizeResult r2 cid, normalizeResult r4 cid] := by
  have c34 := compareResults_some_none (normalizeResult r3 cid) (normalizeResult r4 cid) 1 h3 h4
  have c23 := compareResults_none_some (normalizeResult r2 cid) (normalizeResult r3 cid) 1 h2 h3
  have c24 := compareResults_none_none_tie (normalizeResult r2 cid) (normalizeResult r4 cid) h2 h4 hAw hSch
  have c13 := compareResults_of_ranks (normalizeResult r1 cid) (normalizeResult r3 cid) 3 1 h1 h3 (by decide)
  have c12 := compareResults_some_none (normalizeResult r1 cid) (normalizeResult r2 cid) 3 h1 h2
  simp only [processResults, List.filter_cons, hv1, hv2, hv3, hv4, if_true,
    List.filter_nil, List.map_cons, List.map_nil, jsSortStable, jsInsert,
    c34, c23, c24, c13, c12]
  norm_num

/-- Witness for C8 (amended) on rows [3, null, 1, null] whose null-ranked
rows share the award ชนะเลิศ and the same school. -/
theorem processResults_ranks_sorted_nulls_last_witness :
    processResults
      [{ rank := some "3", school := some "S1" },
       { school := some "Same", award := some "ชนะเลิศ" },
       { rank := some "1", school := some "S3" },
       { school := some "Same", award := some "ชนะเลิศ" }] "c" =
      [normalizeResult { rank := some "1", school := some "S3" } "c",
       normalizeResult { rank := some "3", school := some "S1" } "c",
       normalizeResult { school := some "Same", award := some "ชนะเลิศ" } "c",
       normalizeResult { school := some "Same", award := some "ชนะเลิศ" } "c"] :=
  processResults_ranks_sorted_nulls_last
    { rank := some "3", school := some "S1" }
    { school := some "Same", award := some "ชนะเลิศ" }
    { rank := some "1", school := some "S3" }
    { school := some "Same", award := some "ชนะเลิศ" } "c"
    (by decide) (by decide) (by decide) (by decide)
    (by decide) (by decide) (by decide) (by decide) rfl rfl

/-! ## Remote Fetcher outcomes (src/assets/js/classes/DataService.js) -/

/-- Outcome of one category-competitions promise as seen by
Promise.allSettled: fulfilled with the raw records, or rejected with the
message of the wrapped load-failure error. -/
inductive FetchOutcome where
  | fulfilled (value : List RawCompetition)
  | rejected (reason : String)
deriving Repr, DecidableEq

/-- DataService.fetchAllCompetitions (lines 335-354): Promise.allSettled over
the two category fetches.  allSettled never rejects, so the function is total
on the pair of outcomes: a fulfilled category contributes its array and a
null error slot, a rejected one contributes [] and its reason in the error
slot.  (The surrounding try/catch can never fire and adds nothing.) -/
def fetchAllCompetitions (sci gem : FetchOutcome) : CompetitionsFetch :=
  { science := match sci with | .fulfilled v => v | .rejected _ => []
    gem := match gem with | .fulfilled v => v | .rejected _ => []
    errors :=
      { science := match sci with | .fulfilled _ => none | .rejected e => some (.err e)
        gem := match gem with | .fulfilled _ => none | .rejected e => some (.err e) } }

/-- C1: fetchAllCompetitions resolves for every pair of per-category
outcomes, capturing each category independently: a fulfilled category yields
its array (even when empty) and a null error slot, a rejected one yields []
and its reason.  In the scenario where science succeeds with [] and gem
succeeds with one valid record, the loaded manager exposes exactly one
competition and the science error slot is null (empty success, not failure),
with no error recorded in either slot. -/
theorem fetchAllCompetitions_captures_each_category (sci gem : FetchOutcome) :
    (∀ v, sci = .fulfilled v → (fetchAllCompetitions sci gem).science = v ∧
      (fetchAllCompetitions sci gem).errors.science = none) ∧
    (∀ e, sci = .rejected e → (fetchAllCompetitions sci gem).science = [] ∧
      (fetchAllCompetitions sci gem).errors.science = some (.err e)) ∧
    (∀ v, gem = .fulfilled v → (fetchAllCompetitions sci gem).gem = v ∧
      (fetchAllCompetitions sci gem).errors.gem = none) ∧
    (∀ e, gem = .rejected e → (fetchAllCompetitions sci gem).gem = [] ∧
      (fetchAllCompetitions sci gem).errors.gem = some (.err e)) ∧
    ((fetchAllCompetitions (.fulfilled [])
        (.fulfilled [{ id := some "g1", name := some "GemComp" }])).errors.science = none ∧
      (getAllCompetitions (mgrLoadAllCompetitions (fetchAllCompetitions (.fulfilled [])
        (.fulfilled [{ id := some "g1", name := some "GemComp" }])))).length = 1 ∧
      (mgrLoadAllCompetitions (fetchAllCompetitions (.fulfilled [])
        (.fulfilled [{ id := some "g1", name := some "GemComp" }]))).errors =
        { science := none, gem := none }) := by
  refine ⟨?_, ?_, ?_, ?_, by decide, by decide, by decide⟩
  · rintro v rfl
    exact ⟨rfl, rfl⟩
  · rintro e rfl
    exact ⟨rfl, rfl⟩
  · rintro v rfl
    exact ⟨rfl, rfl⟩
  · rintro e rfl
    exact ⟨rfl, rfl⟩

/-- Witness for C1: a failed science fetch next to a successful gem fetch is
captured as [] plus the reason for science, and the value for gem. -/
theorem fetchAllCompetitions_captures_each_category_witness :
    ((fetchAllCompetitions (.rejected "load failed")
        (.fulfilled [{ id := some "g1", name := some "GemComp" }])).science = [] ∧
      (fetchAllCompetitions (.rejected "load failed")
        (.fulfilled [{ id := some "g1", name := some "GemComp" }])).errors.science =
        some (.err "load failed")) ∧
    ((fetchAllCompetitions (.rejected "load failed")
        (.fulfilled [{ id := some "g1", name := some "GemComp" }])).gem =
        [{ id := some "g1", name := some "GemComp" }] ∧
      (fetchAllCompetitions (.rejected "load failed")
        (.fulfilled [{ id := some "g1", name := some "GemComp" }])).errors.gem = none) :=
  ⟨(fetchAllCompetitions_captures_each_category (.rejected "load failed")
      (.fulfilled [{ id := some "g1", name := some "GemComp" }])).2.1 "load failed" rfl,
   (fetchAllCompetitions_captures_each_category (.rejected "load failed")
      (.fulfilled [{ id := some "g1", name := some "GemComp" }])).2.2.1
      [{ id := some "g1", name := some "GemComp" }] rfl⟩

/-! ## Cache persistence and the world model
(src/assets/js/classes/DataService.js, src/unnamed/part_001) -/

/-- The JSON blob stored under CONFIG.CACHE.PERSIST_KEY: competitions object,
results flattened to a key-to-array structure, timestamp and version tag.
Serialization is modelled as a structured copy; Object.fromEntries followed by
Object.entries preserves the association list for competition-id keys (they
are not integer-index strings). -/
structure StoredCache where
  competitions : Option CompetitionsFetch := none
  results : List (String × List RawResult) := []
  lastUpdated : Option Nat := none
  version : String := ""
deriving Repr, DecidableEq

/-- An entry of the DataService request cache (this.cache): payload plus the
Date.now() write stamp. -/
structure DsEntry where
  data : List RawResult
  timestamp : Nat
deriving Repr, DecidableEq

/-- Lookup in a JavaScript Map modelled as an insertion-ordered association
list with unique keys. -/
def alLookup (k : String) : List (String × β) → Option β
  | [] => none
  | (k', v) :: rest => if k' = k then some v else alLookup k rest

/-- Map.prototype.set: overwrite in place when the key exists, else append. -/
def alSet (k : String) (v : β) : List (String × β) → List (String × β)
  | [] => [(k, v)]
  | (k', v') :: rest => if k' = k then (k, v) :: rest else (k', v') :: alSet k v rest

/-- Map.prototype.delete. -/
def alErase (k : String) : List (String × β) → List (String × β)
  | [] => []
  | (k', v') :: rest => if k' = k then rest else (k', v') :: alErase k rest

/-- The mutable state the cache layer touches: GLOBAL_CACHE, the two
localStorage keys, the DataService request cache and its isPreloading flag. -/
structure World where
  cache : GlobalCache := {}
  storagePersist : Option StoredCache := none
  storageVersion : Option String := none
  dsCache : List (String × DsEntry) := []
  isPreloading : Bool := false
deriving Repr, DecidableEq

/-- JSON.stringify followed by JSON.parse on one error slot: null survives,
but any object keeps only its enumerable own properties, so an Error object
(and the already-plain image of one) comes back as a plain empty object with
the message lost. -/
def jsonErrSlot : Option ErrVal → Option ErrVal
  | none => none
  | some _ => some .plain

/-- The JSON image of the per-category error slots. -/
def jsonCatErrors (e : CatErrors) : CatErrors :=
  { science := jsonErrSlot e.science, gem := jsonErrSlot e.gem }

/-- The JSON image of the competitions object: the raw record arrays are
plain string-valued objects and survive the round trip verbatim, while the
error slots degrade per jsonErrSlot. -/
def jsonCompetitionsFetch (f : CompetitionsFetch) : CompetitionsFetch :=
  { science := f.science, gem := f.gem, errors := jsonCatErrors f.errors }

/-- DataService.saveToLocalStorage (lines 101-117): write the snapshot blob
under the persist key and the version tag under the version key.  The blob is
stored as a JSON string, so the model stores the JSON image of the snapshot:
the record arrays, the results mapping (plain string-valued rows), the
timestamp and the version tag survive verbatim, but an Error held in a
per-category error slot serializes to an empty object.  Storage failures are
caught and logged in the source, never thrown; the write is modelled as
succeeding. -/
def saveToLocalStorage (w : World) : World :=
  { w with
    storagePersist := some
      { competitions := w.cache.competitions.map jsonCompetitionsFetch
        results := w.cache.results
        lastUpdated := w.cache.lastUpdated
        version := appVersion }
    storageVersion := some appVersion }

/-- DataService.loadFromLocalStorage (lines 123-154): reject when the blob is
missing or the stored version tag differs from the running version, or when
the stored timestamp is falsy (absent or zero) or older than the TTL;
otherwise repopulate GLOBAL_CACHE with the parsed blob and report success.
The stored blob already is the JSON image (the degradation happened at
stringify time in saveToLocalStorage), so restoring it verbatim is
faithful. -/
def loadFromLocalStorage (w : World) (now : Nat) : Bool × World :=
  match w.storagePersist, w.storageVersion with
  | some data, some ver =>
    if ver ≠ appVersion then (false, w)
    else
      match data.lastUpdated with
      | some t =>
        if t = 0 then (false, w)
        else if now - t > cacheTimeout then (false, w)
        else (true, { w with cache :=
          { competitions := data.competitions
            results := data.results
            lastUpdated := some t
            isLoaded := true } })
      | none => (false, w)
  | _, _ => (false, w)

/-- DataService.isCacheReady (lines 160-162). -/
def isCacheReady (w : World) (now : Nat) : Bool :=
  w.cache.isLoaded && isCacheValid now w.cache

/-- Outcomes of every remote request the preload can issue: the two category
catalogue fetches plus one results fetch per (competition id, endpoint URL). -/
structure NetEnv where
  science : FetchOutcome
  gem : FetchOutcome
  getResults : String → String → Except String (List RawResult)

/-- DataService.getApiUrl (lines 222-229) on a possibly absent raw category. -/
def getApiUrl (category : Option String) : String :=
  if category = some "science" then scienceUrl
  else if category = some "gem" ∨ category = some "academic" then gemUrl
  else scienceUrl

/-- The request-cache key used by fetchResultsInternal. -/
def resultsCacheKey (competitionId : String) : String :=
  "results_" ++ competitionId

/-- DataService.getFromCache (lines 591-600): a fresh entry is returned
untouched; an expired or missing entry is deleted and null returned. -/
def getFromCache (now : Nat) (key : String) (cache : List (String × DsEntry)) :
    Option (List RawResult) × List (String × DsEntry) :=
  match alLookup key cache with
  | some e =>
    if now - e.timestamp < cacheTimeout then (some e.data, cache)
    else (none, alErase key cache)
  | none => (none, alErase key cache)

/-- DataService.setCache (lines 607-612). -/
def setCache (now : Nat) (key : String) (data : List RawResult)
    (cache : List (String × DsEntry)) : List (String × DsEntry) :=
  alSet key ⟨data, now⟩ cache

/-- DataService.fetchResultsInternal (lines 191-215): serve from the request
cache when fresh, otherwise issue getResults against the category URL, cache
a success, and wrap a failure message with the competition id.  The JSONP
transport is abstracted into the environment outcome. -/
def fetchResultsInternal (env : NetEnv) (now : Nat) (competitionId : String)
    (category : Option String) (cache : List (String × DsEntry)) :
    Except String (List RawResult) × List (String × DsEntry) :=
  let key := resultsCacheKey competitionId
  match getFromCache now key cache with
  | (some cached, cache1) => (.ok cached, cache1)
  | (none, cache1) =>
    match env.getResults competitionId (getApiUrl category) with
    | .ok results => (.ok results, setCache now key results cache1)
    | .error e =>
      (.error ("ไม่สามารถโหลดผลการแข่งขัน " ++ competitionId ++ " ได้: " ++ e), cache1)

/-- Per-competition entry of the resultsSummary built during the preload. -/
structure ResultFetchSummary where
  id : String
  success : Bool
  error : Option String := none
deriving Repr, DecidableEq

/-- Outcome of DataService.preloadAllData: the early success-false return when
already preloading, a thrown error, or the success object with its counts and
the per-competition summary. -/
inductive PreloadOutcome where
  | busy
  | thrown (e : String)
  | done (total loaded failed : Nat) (resultsSummary : List ResultFetchSummary)
deriving Repr, DecidableEq

/-- The result-fetch loop of preloadAllData (lines 47-65).  The promises are
dispatched with a 200 ms stagger and awaited together; each one only touches
the request-cache key of its own competition id, so the batch is sequentialized
here with time held constant at now.  A failed fetch stores [] under the id
and records the failure; a successful one stores the fetched rows. -/
def preloadResultsLoop (env : NetEnv) (now : Nat) :
    List RawCompetition → List (String × DsEntry) →
    List (String × List RawResult) → List ResultFetchSummary →
    List (String × DsEntry) × List (String × List RawResult) × List ResultFetchSummary
  | [], ds, res, sum => (ds, res, sum)
  | comp :: rest, ds, res, sum =>
    let cid := jsStr comp.id
    match fetchResultsInternal env now cid comp.category ds with
    | (.ok v, ds') =>
      preloadResultsLoop env now rest ds' (alSet cid v res) (sum ++ [⟨cid, true, none⟩])
    | (.error e, ds') =>
      preloadResultsLoop env now rest ds' (alSet cid [] res) (sum ++ [⟨cid, false, some e⟩])

/-- DataService.preloadAllData (lines 24-96): guard on isPreloading, fetch
both category catalogues, throw when both are empty, fetch every
competition's results tolerating individual failures, replace GLOBAL_CACHE,
persist to localStorage and report the summary. -/
def preloadAllData (env : NetEnv) (now : Nat) (w : World) :
    PreloadOutcome × World :=
  if w.isPreloading then (.busy, w)
  else
    let competitions := fetchAllCompetitions env.science env.gem
    if competitions.science.length = 0 ∧ competitions.gem.length = 0 then
      (.thrown "No competitions data loaded", w)
    else
      let allCompetitions := competitions.science ++ competitions.gem
      let r := preloadResultsLoop env now allCompetitions w.dsCache [] []
      let successCount := (r.2.2.filter (fun s => s.success)).length
      let w' := saveToLocalStorage
        { w with
          cache :=
            { competitions := some competitions
              results := r.2.1
              lastUpdated := some now
              isLoaded := true }
          dsCache := r.1 }
      (.done allCompetitions.length successCount
        (allCompetitions.length - successCount) r.2.2, w')

/-- CompetitionManager.loadFromGlobalCache (lines 87-101): throws unless the
cache is loaded with a competitions object; otherwise processes both cached
category lists and adopts the error slots — the same construction
mgrLoadAllCompetitions performs on a freshly fetched object. -/
def loadFromGlobalCache (c : GlobalCache) : Except String ManagerView :=
  if c.isLoaded then
    match c.competitions with
    | some f => .ok (mgrLoadAllCompetitions f)
    | none => .error "Global cache is not ready"
  else .error "Global cache is not ready"

/-- CompetitionManager.initialize (lines 29-60) together with the manager
preloadAllData wrapper (lines 66-82): adopt a valid global cache, else restore
from localStorage, else run the full preload; a preload failure falls back to
loadAllCompetitions (competitions only, cache untouched).  The returned
number counts the DataService.preloadAllData executions that reached the
network (0 or 1 per call). -/
def managerInit (env : NetEnv) (now : Nat) (w : World) :
    Except String (World × ManagerView × Nat) :=
  if isCacheReady w now then
    match loadFromGlobalCache w.cache with
    | .ok mv => .ok (w, { mv with initDone := true }, 0)
    | .error e => .error e
  else
    match loadFromLocalStorage w now with
    | (true, w1) =>
      match loadFromGlobalCache w1.cache with
      | .ok mv => .ok (w1, { mv with initDone := true }, 0)
      | .error e => .error e
    | (false, w1) =>
      match preloadAllData env now w1 with
      | (.done _ _ _ _, w2) =>
        match loadFromGlobalCache w2.cache with
        | .ok mv => .ok (w2, { mv with initDone := true }, 1)
        | .error _ =>
          .ok (w2, { mgrLoadAllCompetitions (fetchAllCompetitions env.science env.gem)
                      with initDone := true }, 1)
      | (.busy, w2) =>
        .ok (w2, { mgrLoadAllCompetitions (fetchAllCompetitions env.science env.gem)
                    with initDone := true }, 0)
      | (.thrown _, w2) =>
        .ok (w2, { mgrLoadAllCompetitions (fetchAllCompetitions env.science env.gem)
                    with initDone := true }, 1)

/-- The snapshot a partial-failure preload leaves behind: the science fetch
rejected (its Error in the science error slot, message
CONFIG.ERRORS.SCIENCE_LOAD_FAILED), the gem fetch returned one record, so the
preload succeeded and persisted this snapshot. -/
def errorSlotWorld : World :=
  { cache :=
      { competitions := some
          { science := []
            gem := [{ id := some "g1", name := some "G" }]
            errors :=
              { science := some (.err "ไม่สามารถโหลดรายการการแข่งขันวิทยาศาสตร์ได้")
                gem := none } }
        results := []
        lastUpdated := some 5000
        isLoaded := true } }

/-- C4 counterexample: persisting the reachable snapshot whose science error
slot holds an Error and restoring it immediately (same version, within the
TTL) succeeds, but the restored snapshot is not equal in content to the one
persisted: JSON.stringify drops the non-enumerable message of the Error, so
the slot comes back as a plain empty object. -/
theorem persist_restore_error_slot_counterexample :
    (loadFromLocalStorage (saveToLocalStorage errorSlotWorld) 6000).1 = true ∧
    (loadFromLocalStorage (saveToLocalStorage errorSlotWorld) 6000).2.cache.competitions ≠
      errorSlotWorld.cache.competitions ∧
    (loadFromLocalStorage (saveToLocalStorage errorSlotWorld) 6000).2.cache.competitions =
      some
        { science := []
          gem := [{ id := some "g1", name := some "G" }]
          errors := { science := some .plain, gem := none } } := by
  decide

/-- C4 (amended): persisting any in-memory snapshot that carries a genuine
timestamp within the TTL and then immediately restoring it (same running
version, so the tags match by construction) succeeds and repopulates the
in-memory snapshot with the JSON image of the persisted content: the same
results mapping, the same lastUpdated, the loaded flag set, and the
competitions catalogue with its record arrays intact but each Error-valued
per-category error slot degraded to a plain empty object; when no error slot
holds an Error (both slots null), the restored catalogue is equal to the
persisted one. -/
theorem persist_then_restore_roundtrip (w : World) (t now : Nat)
    (hlu : w.cache.lastUpdated = some t) (ht : 0 < t)
    (hfresh : now - t ≤ cacheTimeout) :
    (loadFromLocalStorage (saveToLocalStorage w) now).1 = true ∧
    ((loadFromLocalStorage (saveToLocalStorage w) now).2).cache.competitions =
      w.cache.competitions.map jsonCompetitionsFetch ∧
    ((loadFromLocalStorage (saveToLocalStorage w) now).2).cache.results =
      w.cache.results ∧
    ((loadFromLocalStorage (saveToLocalStorage w) now).2).cache.lastUpdated = some t ∧
    ((loadFromLocalStorage (saveToLocalStorage w) now).2).cache.isLoaded = true ∧
    (∀ f, w.cache.competitions = some f → f.errors.science = none →
      f.errors.gem = none →
      ((loadFromLocalStorage (saveToLocalStorage w) now).2).cache.competitions =
        w.cache.competitions) := by
  have h0 : ¬ (t = 0) := by omega
  have h1 : ¬ (now - t > cacheTimeout) := by omega
  refine ⟨?_, ?_, ?_, ?_, ?_, ?_⟩
  · simp [saveToLocalStorage, loadFromLocalStorage, hlu, h0, h1]
  · simp [saveToLocalStorage, loadFromLocalStorage, hlu, h0, h1]
  · simp [saveToLocalStorage, loadFromLocalStorage, hlu, h0, h1]
  · simp [saveToLocalStorage, loadFromLocalStorage, hlu, h0, h1]
  · simp [saveToLocalStorage, loadFromLocalStorage, hlu, h0, h1]
  · intro f hf hsci hgem
    have hjson : jsonCompetitionsFetch f = f := by
      cases f with
      | mk fs fg fe =>
        cases fe with
        | mk es eg =>
          dsimp only at hsci hgem
          subst hsci
          subst hgem
          rfl
    simp [saveToLocalStorage, loadFromLocalStorage, hlu, h0, h1, hf, hjson]

/-- Witness for C4 (amended) at a concrete snapshot with one cached result
list and null error slots, for which the restored catalogue is equal to the
persisted one. -/
theorem persist_then_restore_roundtrip_witness :
    (loadFromLocalStorage (saveToLocalStorage
      { cache := { competitions := some { science := [], gem := [], errors := {} },
                   results := [("c1", [{ school := some "S" }])],
                   lastUpdated := some 5000, isLoaded := true } }) 6000).1 = true ∧
    (loadFromLocalStorage (saveToLocalStorage
      { cache := { competitions := some { science := [], gem := [], errors := {} },
                   results := [("c1", [{ school := some "S" }])],
                   lastUpdated := some 5000, isLoaded := true } }) 6000).2.cache.results =
      [("c1", [{ school := some "S" }])] ∧
    (loadFromLocalStorage (saveToLocalStorage
      { cache := { competitions := some { science := [], gem := [], errors := {} },
                   results := [("c1", [{ school := some "S" }])],
                   lastUpdated := some 5000, isLoaded := true } }) 6000).2.cache.competitions =
      some { science := [], gem := [], errors := {} } := by
  have h := persist_then_restore_roundtrip
    { cache := { competitions := some { science := [], gem := [], errors := {} },
                 results := [("c1", [{ school := some "S" }])],
                 lastUpdated := some 5000, isLoaded := true } } 5000 6000
    rfl (by decide) (by decide)
  exact ⟨h.1, h.2.2.1, h.2.2.2.2.2 _ rfl rfl rfl⟩

/-- loadFromGlobalCache succeeds exactly on a loaded cache with a
competitions object, and then produces the processed view of that object. -/
theorem loadFromGlobalCache_ok_iff (c : GlobalCache) (mv : ManagerView) :
    loadFromGlobalCache c = .ok mv ↔
      c.isLoaded = true ∧ ∃ f, c.competitions = some f ∧
        mv = mgrLoadAllCompetitions f := by
  cases hc : c.competitions with
  | none =>
    by_cases hl : c.isLoaded = true <;> simp [loadFromGlobalCache, hc, hl]
  | some f =>
    by_cases hl : c.isLoaded = true <;>
      simp [loadFromGlobalCache, hc, hl, eq_comm]

/-- When the global cache is ready, the entry point adopts its snapshot with
no network preload. -/
theorem managerInit_cache_hit (env : NetEnv) (now : Nat) (w : World)
    (f : CompetitionsFetch) (hready : isCacheReady w now = true)
    (hf : w.cache.competitions = some f) :
    managerInit env now w =
      .ok (w, { mgrLoadAllCompetitions f with initDone := true }, 0) := by
  have hld : w.cache.isLoaded = true := by
    have h2 := hready
    simp only [isCacheReady, Bool.and_eq_true] at h2
    exact h2.1
  simp [managerInit, hready, loadFromGlobalCache, hld, hf]

/-- A readiness check from the stamp facts. -/
theorem isCacheReady_of_stamp (w : World) (now t : Nat)
    (hld : w.cache.isLoaded = true) (hstamp : w.cache.lastUpdated = some t)
    (ht : 0 < t) (hfresh : now - t < cacheTimeout) :
    isCacheReady w now = true := by
  simp only [isCacheReady, isCacheValid, hld, hstamp, Bool.true_and,
    Bool.and_eq_true, decide_eq_true_eq]
  exact ⟨by omega, hfresh⟩

/-- A successful restore comes from a stored blob with a matching version and
a fresh non-zero stamp, and replaces only the in-memory cache. -/
theorem loadFromLocalStorage_true_spec (w : World) (now : Nat) (w' : World)
    (h : loadFromLocalStorage w now = (true, w')) :
    ∃ b t, w.storagePersist = some b ∧ b.lastUpdated = some t ∧ t ≠ 0 ∧
      ¬ (now - t > cacheTimeout) ∧
      w' = { w with cache :=
        { competitions := b.competitions, results := b.results,
          lastUpdated := some t, isLoaded := true } } := by
  cases hsp : w.storagePersist with
  | none => simp [loadFromLocalStorage, hsp] at h
  | some data =>
    cases hsv : w.storageVersion with
    | none => simp [loadFromLocalStorage, hsp, hsv] at h
    | some ver =>
      by_cases hv : ver = appVersion
      · cases hlu : data.lastUpdated with
        | none => simp [loadFromLocalStorage, hsp, hsv, hv, hlu] at h
        | some t =>
          by_cases h0 : t = 0
          · simp [loadFromLocalStorage, hsp, hsv, hv, hlu, h0] at h
          · by_cases hexp : now - t > cacheTimeout
            · simp [loadFromLocalStorage, hsp, hsv, hv, hlu, h0, hexp] at h
            · simp only [loadFromLocalStorage, hsp, hsv, hlu] at h
              rw [if_neg (by simp [hv]), if_neg h0, if_neg hexp] at h
              refine ⟨data, t, rfl, hlu, h0, hexp, ?_⟩
              exact (congrArg Prod.snd h).symm
      · simp [loadFromLocalStorage, hsp, hsv, hv] at h

/-- A failed restore leaves the world untouched. -/
theorem loadFromLocalStorage_false_world (w : World) (now : Nat) (w' : World)
    (h : loadFromLocalStorage w now = (false, w')) : w' = w := by
  cases hsp : w.storagePersist with
  | none => simp [loadFromLocalStorage, hsp] at h; exact h.symm
  | some data =>
    cases hsv : w.storageVersion with
    | none => simp [loadFromLocalStorage, hsp, hsv] at h; exact h.symm
    | some ver =>
      by_cases hv : ver = appVersion
      · cases hlu : data.lastUpdated with
        | none => simp [loadFromLocalStorage, hsp, hsv, hv, hlu] at h; exact h.symm
        | some t =>
          by_cases h0 : t = 0
          · simp [loadFromLocalStorage, hsp, hsv, hv, hlu, h0] at h; exact h.symm
          · by_cases hexp : now - t > cacheTimeout
            · simp [loadFromLocalStorage, hsp, hsv, hv, hlu, h0, hexp] at h
              exact h.symm
            · simp [loadFromLocalStorage, hsp, hsv, hv, hlu, h0, hexp] at h
      · simp [loadFromLocalStorage, hsp, hsv, hv] at h; exact h.symm

/-- With the isPreloading guard clear, the preload never reports busy. -/
theorem preloadAllData_not_busy (env : NetEnv) (now : Nat) (w w2 : World)
    (hpre : w.isPreloading = false)
    (h : preloadAllData env now w = (.busy, w2)) : False := by
  simp only [preloadAllData, hpre] at h
  rw [if_neg (by decide : ¬ (false = true))] at h
  split at h <;> simp at h

/-- A thrown preload (empty catalogues) leaves the world untouched. -/
theorem preloadAllData_thrown_world (env : NetEnv) (now : Nat) (w : World)
    (e : String) (w2 : World) (hpre : w.isPreloading = false)
    (h : preloadAllData env now w = (.thrown e, w2)) : w2 = w := by
  simp only [preloadAllData, hpre] at h
  rw [if_neg (by decide : ¬ (false = true))] at h
  split at h
  · exact ((Prod.mk.injEq _ _ _ _).mp h).2.symm
  · simp at h

/-- A successful preload leaves the cache loaded with the fetched catalogue
and the current stamp. -/
theorem preloadAllData_done_spec (env : NetEnv) (now : Nat) (w : World)
    (hpre : w.isPreloading = false) (total loaded failed : Nat)
    (rsum : List ResultFetchSummary) (w2 : World)
    (h : preloadAllData env now w = (.done total loaded failed rsum, w2)) :
    w2.cache.isLoaded = true ∧ w2.cache.lastUpdated = some now ∧
      w2.cache.competitions = some (fetchAllCompetitions env.science env.gem) := by
  simp only [preloadAllData, hpre] at h
  rw [if_neg (by decide : ¬ (false = true))] at h
  split at h
  · simp at h
  · injection h with h1 h2
    refine ⟨?_, ?_, ?_⟩ <;> rw [← h2] <;> rfl

/-- States the cache layer can actually be in: a loaded cache holds a
competitions object, an unloaded cache holds no stamp, stamps are genuine
Date.now() values, and no preload is in flight between calls (the source
resets isPreloading in a finally block). -/
def WellFormedWorld (w : World) : Prop :=
  (w.cache.isLoaded = true → (w.cache.competitions).isSome = true) ∧
  (w.cache.isLoaded = false → w.cache.lastUpdated = none) ∧
  (∀ t, w.cache.lastUpdated = some t → 0 < t) ∧
  w.isPreloading = false

/-- C2: after a successful first call to the fetch-or-use-cache entry point,
a second call without an intervening clear, while the snapshot stamp is still
inside the TTL, performs no network preload: it finds the cache valid,
returns the same world and the same manager snapshot, and the two calls
together run at most one network preload. -/
theorem second_init_call_hits_cache
    (env1 env2 : NetEnv) (now1 now2 t0 : Nat) (w0 w1 : World)
    (mv1 : ManagerView) (p1 : Nat)
    (hwf : WellFormedWorld w0) (hnow1 : 0 < now1) (h12 : now1 ≤ now2)
    (hcall1 : managerInit env1 now1 w0 = .ok (w1, mv1, p1))
    (hstamp : w1.cache.lastUpdated = some t0)
    (hfresh : now2 - t0 < cacheTimeout) :
    managerInit env2 now2 w1 = .ok (w1, mv1, 0) ∧
    isCacheReady w1 now2 = true ∧ p1 + 0 ≤ 1 := by
  obtain ⟨hWFc, hWFl, hWFt, hWFp⟩ := hwf
  unfold managerInit at hcall1
  split at hcall1
  case isTrue hready =>
    split at hcall1
    case h_1 mv heq =>
      obtain ⟨hld, f, hf, rfl⟩ := (loadFromGlobalCache_ok_iff _ _).mp heq
      obtain ⟨rfl, rfl, rfl⟩ : w0 = w1 ∧
          ({ mgrLoadAllCompetitions f with initDone := true } : ManagerView) = mv1 ∧
          0 = p1 := by simpa using hcall1
      have ht0 : 0 < t0 := hWFt t0 hstamp
      have hready2 : isCacheReady w0 now2 = true :=
        isCacheReady_of_stamp w0 now2 t0 hld hstamp ht0 hfresh
      exact ⟨managerInit_cache_hit env2 now2 w0 f hready2 hf, hready2, by omega⟩
    case h_2 e heq => simp at hcall1
  case isFalse hnready =>
    split at hcall1
    case h_1 w1' hload =>
      split at hcall1
      case h_1 mv heq2 =>
        obtain ⟨hld, f, hf, rfl⟩ := (loadFromGlobalCache_ok_iff _ _).mp heq2
        obtain ⟨rfl, rfl, rfl⟩ : w1' = w1 ∧
            ({ mgrLoadAllCompetitions f with initDone := true } : ManagerView) = mv1 ∧
            0 = p1 := by simpa using hcall1
        obtain ⟨b, t, hsp, hblu, htne, hexp, hw'⟩ :=
          loadFromLocalStorage_true_spec w0 now1 w1' hload
        have hlu' : w1'.cache.lastUpdated = some t := by rw [hw']
        have ht0 : 0 < t0 := by
          rw [hstamp] at hlu'
          have : t0 = t := by injection hlu'
          omega
        have hready2 : isCacheReady w1' now2 = true :=
          isCacheReady_of_stamp w1' now2 t0 hld hstamp ht0 hfresh
        exact ⟨managerInit_cache_hit env2 now2 w1' f hready2 hf, hready2, by omega⟩
      case h_2 e heq2 => simp at hcall1
    case h_2 w1' hload =>
      have hw1' : w1' = w0 := loadFromLocalStorage_false_world w0 now1 w1' hload
      rw [hw1'] at hcall1
      split at hcall1
      case h_1 total loaded failed rsum w2 heqP =>
        obtain ⟨hld2, hlu2, hcf2⟩ :=
          preloadAllData_done_spec env1 now1 w0 hWFp total loaded failed rsum w2 heqP
        split at hcall1
        case h_1 mv heq2 =>
          obtain ⟨hld, f, hf, rfl⟩ := (loadFromGlobalCache_ok_iff _ _).mp heq2
          obtain ⟨rfl, rfl, rfl⟩ : w2 = w1 ∧
              ({ mgrLoadAllCompetitions f with initDone := true } : ManagerView) = mv1 ∧
              1 = p1 := by simpa using hcall1
          have ht0 : 0 < t0 := by
            rw [hstamp] at hlu2
            have : t0 = now1 := by injection hlu2
            omega
          have hready2 : isCacheReady w2 now2 = true :=
            isCacheReady_of_stamp w2 now2 t0 hld hstamp ht0 hfresh
          exact ⟨managerInit_cache_hit env2 now2 w2 f hready2 hf, hready2, by omega⟩
        case h_2 e heq2 =>
          exfalso
          rw [loadFromGlobalCache, if_pos hld2, hcf2] at heq2
          simp at heq2
      case h_2 w2 heqP =>
        exfalso
        exact preloadAllData_not_busy env1 now1 w0 w2 hWFp heqP
      case h_3 e w2 heqP =>
        exfalso
        have hw2 : w2 = w0 := preloadAllData_thrown_world env1 now1 w0 e w2 hWFp heqP
        obtain ⟨heq1, -, -⟩ : w2 = w1 ∧
            ({ mgrLoadAllCompetitions (fetchAllCompetitions env1.science env1.gem)
                with initDone := true } : ManagerView) = mv1 ∧
            1 = p1 := by simpa using hcall1
        have hw10 : w1 = w0 := by rw [← heq1, hw2]
        rw [hw10] at hstamp
        by_cases hld : w0.cache.isLoaded = true
        · have ht0 : 0 < t0 := hWFt t0 hstamp
          apply hnready
          exact isCacheReady_of_stamp w0 now1 t0 hld hstamp ht0 (by omega)
        · have hnone := hWFl (by simpa using hld)
          rw [hstamp] at hnone
          simp at hnone

/-- A network environment with empty successful fetches, for concrete runs. -/
def trivialNetEnv : NetEnv :=
  { science := .fulfilled [], gem := .fulfilled [], getResults := fun _ _ => .ok [] }

/-- Witness for C2: a world whose cache is already loaded and fresh; the
first call at time 2000 adopts it, the second call at time 3000 adopts it
again with zero preloads. -/
theorem second_init_call_hits_cache_witness :
    managerInit trivialNetEnv 3000
      { cache := { competitions := some {}, results := [], lastUpdated := some 1000,
                   isLoaded := true } } =
      .ok ({ cache := { competitions := some {}, results := [], lastUpdated := some 1000,
                        isLoaded := true } },
           { science := [], gem := [], all := [], errors := {}, initDone := true }, 0) ∧
    isCacheReady
      { cache := { competitions := some {}, results := [], lastUpdated := some 1000,
                   isLoaded := true } } 3000 = true ∧ (0 : Nat) + 0 ≤ 1 :=
  second_init_call_hits_cache trivialNetEnv trivialNetEnv 2000 3000 1000
    { cache := { competitions := some {}, results := [], lastUpdated := some 1000,
                 isLoaded := true } }
    { cache := { competitions := some {}, results := [], lastUpdated := some 1000,
                 isLoaded := true } }
    { science := [], gem := [], all := [], errors := {}, initDone := true } 0
    ⟨fun _ => rfl, fun h => by simp at h, fun t ht => by injection ht with h; omega, rfl⟩
    (by decide) (by decide) rfl rfl (by decide)

/-- Setting one key leaves lookups of other keys unchanged. -/
theorem alLookup_alSet_ne (kL kS : String) (v : β) (l : List (String × β))
    (h : kS ≠ kL) : alLookup kL (alSet kS v l) = alLookup kL l := by
  induction l with
  | nil => simp [alSet, alLookup, h]
  | cons p rest ih =>
    obtain ⟨a, b⟩ := p
    by_cases hak : a = kS
    · simp [alSet, alLookup, hak, h]
    · simp [alSet, alLookup, hak, ih]

/-- Setting a key makes it look up to the new value. -/
theorem alLookup_alSet_self (k : String) (v : β) (l : List (String × β)) :
    alLookup k (alSet k v l) = some v := by
  induction l with
  | nil => simp [alSet, alLookup]
  | cons p rest ih =>
    obtain ⟨a, b⟩ := p
    by_cases hak : a = k
    · simp [alSet, alLookup, hak]
    · simp [alSet, alLookup, hak, ih]

/-- Deleting one key leaves lookups of other keys unchanged. -/
theorem alLookup_alErase_ne (kL kE : String) (l : List (String × β))
    (h : kE ≠ kL) : alLookup kL (alErase kE l) = alLookup kL l := by
  induction l with
  | nil => simp [alErase, alLookup]
  | cons p rest ih =>
    obtain ⟨a, b⟩ := p
    by_cases hak : a = kE
    · subst hak
      simp [alErase, alLookup, h]
    · simp [alErase, alLookup, hak, ih]

/-- getFromCache only ever touches its own key. -/
theorem getFromCache_frame (now : Nat) (key : String)
    (cache : List (String × DsEntry)) (kL : String) (h : key ≠ kL) :
    alLookup kL (getFromCache now key cache).2 = alLookup kL cache := by
  unfold getFromCache
  cases hl : alLookup key cache with
  | some e =>
    by_cases hfr : now - e.timestamp < cacheTimeout
    · simp [hfr]
    · simp [hfr, alLookup_alErase_ne kL key cache h]
  | none => simp [alLookup_alErase_ne kL key cache h]

/-- fetchResultsInternal only ever touches its own request-cache key. -/
theorem fetchResultsInternal_frame (env : NetEnv) (now : Nat)
    (cid : String) (cat : Option String) (cache : List (String × DsEntry))
    (kL : String) (h : resultsCacheKey cid ≠ kL) :
    alLookup kL (fetchResultsInternal env now cid cat cache).2 =
      alLookup kL cache := by
  have hf := getFromCache_frame now (resultsCacheKey cid) cache kL h
  unfold fetchResultsInternal
  dsimp only
  rcases hg : getFromCache now (resultsCacheKey cid) cache with ⟨fst, snd⟩
  rw [hg] at hf
  cases fst with
  | some d => simpa using hf
  | none =>
    cases henv : env.getResults cid (getApiUrl cat) with
    | ok v =>
      simp only [setCache]
      rw [alLookup_alSet_ne kL (resultsCacheKey cid) _ snd h]
      simpa using hf
    | error e => simpa using hf

/-- The outcome of fetchResultsInternal depends only on the value stored under
its own request-cache key. -/
theorem fetchResultsInternal_agrees (env : NetEnv) (now : Nat)
    (cid : String) (cat : Option String) (c1 c2 : List (String × DsEntry))
    (h : alLookup (resultsCacheKey cid) c1 = alLookup (resultsCacheKey cid) c2) :
    (fetchResultsInternal env now cid cat c1).1 =
      (fetchResultsInternal env now cid cat c2).1 := by
  unfold fetchResultsInternal getFromCache
  dsimp only
  rw [h]
  cases alLookup (resultsCacheKey cid) c2 with
  | some e =>
    by_cases hfr : now - e.timestamp < cacheTimeout <;>
      cases env.getResults cid (getApiUrl cat) <;> simp [hfr]
  | none => cases env.getResults cid (getApiUrl cat) <;> simp

/-- The per-competition outcome and summary entry determined by the initial
request-cache state (the loop preserves it because competition ids, hence
request-cache keys, are pairwise distinct). -/
def perCompSummary (env : NetEnv) (now : Nat)
    (ds0 : List (String × DsEntry)) (c : RawCompetition) : ResultFetchSummary :=
  match (fetchResultsInternal env now (jsStr c.id) c.category ds0).1 with
  | .ok _ => ⟨jsStr c.id, true, none⟩
  | .error e => ⟨jsStr c.id, false, some e⟩

/-- The results-map entry the loop stores for a competition, as determined by
the initial request-cache state. -/
def perCompEntry (env : NetEnv) (now : Nat)
    (ds0 : List (String × DsEntry)) (c : RawCompetition) : List RawResult :=
  match (fetchResultsInternal env now (jsStr c.id) c.category ds0).1 with
  | .ok v => v
  | .error _ => []

/-- Behaviour of the preload result loop when the request-cache keys of the
competitions are pairwise distinct: the summary appends one entry per
competition and the results map stores the fetched rows, or [] on failure,
under each competition id, all as determined by the initial cache state. -/
theorem preloadResultsLoop_spec (env : NetEnv) (now : Nat)
    (ds0 : List (String × DsEntry)) (comps : List RawCompetition) :
    ∀ (ds : List (String × DsEntry)) (res : List (String × List RawResult))
      (acc : List ResultFetchSummary),
    (comps.map (fun c => resultsCacheKey (jsStr c.id))).Nodup →
    (∀ c ∈ comps, alLookup (resultsCacheKey (jsStr c.id)) ds =
      alLookup (resultsCacheKey (jsStr c.id)) ds0) →
    ((preloadResultsLoop env now comps ds res acc).2.2 =
      acc ++ comps.map (perCompSummary env now ds0)) ∧
    (∀ c ∈ comps,
      alLookup (jsStr c.id) (preloadResultsLoop env now comps ds res acc).2.1 =
        some (perCompEntry env now ds0 c)) ∧
    (∀ k, (∀ c ∈ comps, jsStr c.id ≠ k) →
      alLookup k (preloadResultsLoop env now comps ds res acc).2.1 =
        alLookup k res) := by
  induction comps with
  | nil =>
    intro ds res acc hnd hagree
    refine ⟨by simp [preloadResultsLoop], by simp, ?_⟩
    intro k hk
    simp [preloadResultsLoop]
  | cons c rest ih =>
    intro ds res acc hnd hagree
    simp only [List.map_cons, List.nodup_cons] at hnd
    obtain ⟨hnd1, hnd2⟩ := hnd
    have hne : ∀ c' ∈ rest,
        resultsCacheKey (jsStr c'.id) ≠ resultsCacheKey (jsStr c.id) :=
      fun c' hc' heq => hnd1 (heq ▸ List.mem_map_of_mem _ hc')
    have hneid : ∀ c' ∈ rest, jsStr c'.id ≠ jsStr c.id :=
      fun c' hc' heq => hne c' hc' (congrArg resultsCacheKey heq)
    have hkey : alLookup (resultsCacheKey (jsStr c.id)) ds =
        alLookup (resultsCacheKey (jsStr c.id)) ds0 :=
      hagree c (List.mem_cons_self c rest)
    have houtc : (fetchResultsInternal env now (jsStr c.id) c.category ds).1 =
        (fetchResultsInternal env now (jsStr c.id) c.category ds0).1 :=
      fetchResultsInternal_agrees env now (jsStr c.id) c.category ds ds0 hkey
    rcases hout : fetchResultsInternal env now (jsStr c.id) c.category ds
      with ⟨outc, ds'⟩
    have hout1 : (fetchResultsInternal env now (jsStr c.id) c.category ds0).1 =
        outc := by rw [← houtc, hout]
    have hagree' : ∀ c' ∈ rest, alLookup (resultsCacheKey (jsStr c'.id)) ds' =
        alLookup (resultsCacheKey (jsStr c'.id)) ds0 := by
      intro c' hc'
      have hframe := fetchResultsInternal_frame env now (jsStr c.id) c.category ds
        (resultsCacheKey (jsStr c'.id)) (fun he => hne c' hc' he.symm)
      rw [hout] at hframe
      rw [hframe]
      exact hagree c' (List.mem_cons_of_mem _ hc')
    cases outc with
    | ok v =>
      have hstep : preloadResultsLoop env now (c :: rest) ds res acc =
          preloadResultsLoop env now rest ds' (alSet (jsStr c.id) v res)
            (acc ++ [⟨jsStr c.id, true, none⟩]) := by
        simp [preloadResultsLoop, hout]
      obtain ⟨ihs, ihres, ihframe⟩ := ih ds' (alSet (jsStr c.id) v res)
        (acc ++ [⟨jsStr c.id, true, none⟩]) hnd2 hagree'
      refine ⟨?_, ?_, ?_⟩
      · rw [hstep, ihs]
        simp [perCompSummary, hout1, List.append_assoc]
      · intro c' hc'
        rcases List.mem_cons.mp hc' with rfl | hc'
        · rw [hstep]
          rw [ihframe (jsStr c'.id) (fun c'' hc'' => hneid c'' hc'')]
          rw [alLookup_alSet_self]
          simp [perCompEntry, hout1]
        · rw [hstep]
          exact ihres c' hc'
      · intro k hk
        rw [hstep]
        rw [ihframe k (fun c'' hc'' => hk c'' (List.mem_cons_of_mem _ hc''))]
        exact alLookup_alSet_ne k (jsStr c.id) v res
          (hk c (List.mem_cons_self c rest))
    | error e =>
      have hstep : preloadResultsLoop env now (c :: rest) ds res acc =
          preloadResultsLoop env now rest ds' (alSet (jsStr c.id) [] res)
            (acc ++ [⟨jsStr c.id, false, some e⟩]) := by
        simp [preloadResultsLoop, hout]
      obtain ⟨ihs, ihres, ihframe⟩ := ih ds' (alSet (jsStr c.id) [] res)
        (acc ++ [⟨jsStr c.id, false, some e⟩]) hnd2 hagree'
      refine ⟨?_, ?_, ?_⟩
      · rw [hstep, ihs]
        simp [perCompSummary, hout1, List.append_assoc]
      · intro c' hc'
        rcases List.mem_cons.mp hc' with rfl | hc'
        · rw [hstep]
          rw [ihframe (jsStr c'.id) (fun c'' hc'' => hneid c'' hc'')]
          rw [alLookup_alSet_self]
          simp [perCompEntry, hout1]
        · rw [hstep]
          exact ihres c' hc'
      · intro k hk
        rw [hstep]
        rw [ihframe k (fun c'' hc'' => hk c'' (List.mem_cons_of_mem _ hc''))]
        exact alLookup_alSet_ne k (jsStr c.id) [] res
          (hk c (List.mem_cons_self c rest))

/-- C9: with distinct competition ids (hence distinct request-cache keys) and
at least one fetched competition, the bulk preload always returns its success
object and writes the combined snapshot (loaded flag, timestamp, catalogue,
and the persisted blob holding the JSON image of the catalogue); every
competition whose individual result fetch fails gets []
as its results-map entry and a failure record in the per-competition summary,
and every successful fetch stores its rows — an individual failure never
aborts the preload. -/
theorem preload_tolerates_result_failures
    (env : NetEnv) (now : Nat) (w : World)
    (hpre : w.isPreloading = false)
    (hne : (fetchAllCompetitions env.science env.gem).science ++
           (fetchAllCompetitions env.science env.gem).gem ≠ [])
    (hnd : (((fetchAllCompetitions env.science env.gem).science ++
             (fetchAllCompetitions env.science env.gem).gem).map
              (fun c => resultsCacheKey (jsStr c.id))).Nodup) :
    ∃ total loaded failed rsum w2,
      preloadAllData env now w = (.done total loaded failed rsum, w2) ∧
      w2.cache.isLoaded = true ∧
      w2.cache.lastUpdated = some now ∧
      w2.cache.competitions = some (fetchAllCompetitions env.science env.gem) ∧
      w2.storagePersist = some
        { competitions :=
            some (jsonCompetitionsFetch (fetchAllCompetitions env.science env.gem)),
          results := w2.cache.results, lastUpdated := some now,
          version := appVersion } ∧
      (∀ c ∈ (fetchAllCompetitions env.science env.gem).science ++
             (fetchAllCompetitions env.science env.gem).gem,
        ∀ e, (fetchResultsInternal env now (jsStr c.id) c.category w.dsCache).1 =
            .error e →
          alLookup (jsStr c.id) w2.cache.results = some [] ∧
          (⟨jsStr c.id, false, some e⟩ : ResultFetchSummary) ∈ rsum) ∧
      (∀ c ∈ (fetchAllCompetitions env.science env.gem).science ++
             (fetchAllCompetitions env.science env.gem).gem,
        ∀ v, (fetchResultsInternal env now (jsStr c.id) c.category w.dsCache).1 =
            .ok v →
          alLookup (jsStr c.id) w2.cache.results = some v) := by
  have hlen : ¬ ((fetchAllCompetitions env.science env.gem).science.length = 0 ∧
      (fetchAllCompetitions env.science env.gem).gem.length = 0) := by
    rintro ⟨h1, h2⟩
    apply hne
    rw [List.length_eq_zero] at h1 h2
    rw [h1, h2]
    rfl
  obtain ⟨hs, hres, -⟩ := preloadResultsLoop_spec env now w.dsCache
    ((fetchAllCompetitions env.science env.gem).science ++
      (fetchAllCompetitions env.science env.gem).gem)
    w.dsCache [] [] hnd (fun c hc => rfl)
  refine ⟨((fetchAllCompetitions env.science env.gem).science ++
      (fetchAllCompetitions env.science env.gem).gem).length,
    ((preloadResultsLoop env now
        ((fetchAllCompetitions env.science env.gem).science ++
          (fetchAllCompetitions env.science env.gem).gem)
        w.dsCache [] []).2.2.filter (fun s => s.success)).length,
    ((fetchAllCompetitions env.science env.gem).science ++
      (fetchAllCompetitions env.science env.gem).gem).length -
      ((preloadResultsLoop env now
          ((fetchAllCompetitions env.science env.gem).science ++
            (fetchAllCompetitions env.science env.gem).gem)
          w.dsCache [] []).2.2.filter (fun s => s.success)).length,
    (preloadResultsLoop env now
        ((fetchAllCompetitions env.science env.gem).science ++
          (fetchAllCompetitions env.science env.gem).gem)
        w.dsCache [] []).2.2,
    saveToLocalStorage
      { w with
        cache :=
          { competitions := some (fetchAllCompetitions env.science env.gem)
            results := (preloadResultsLoop env now
              ((fetchAllCompetitions env.science env.gem).science ++
                (fetchAllCompetitions env.science env.gem).gem)
              w.dsCache [] []).2.1
            lastUpdated := some now
            isLoaded := true }
        dsCache := (preloadResultsLoop env now
          ((fetchAllCompetitions env.science env.gem).science ++
            (fetchAllCompetitions env.science env.gem).gem)
          w.dsCache [] []).1 },
    ?_, rfl, rfl, rfl, rfl, ?_, ?_⟩
  · simp only [preloadAllData, hpre]
    rw [if_neg (by decide : ¬ (false = true)), if_neg hlen]
  · intro c hc e hce
    have h1 := hres c hc
    simp only [perCompEntry, hce] at h1
    refine ⟨by simpa [saveToLocalStorage] using h1, ?_⟩
    have h2 : perCompSummary env now w.dsCache c =
        ⟨jsStr c.id, false, some e⟩ := by simp [perCompSummary, hce]
    rw [hs]
    simp only [List.nil_append]
    rw [← h2]
    exact List.mem_map_of_mem _ hc
  · intro c hc v hcv
    have h1 := hres c hc
    simp only [perCompEntry, hcv] at h1
    simpa [saveToLocalStorage] using h1

/-- Environment with one science competition whose results fetch always
fails. -/
def failingNetEnv : NetEnv :=
  { science := .fulfilled [{ id := some "c1", name := some "A" }]
    gem := .fulfilled []
    getResults := fun _ _ => .error "down" }

/-- Witness for C9: the preload under failingNetEnv still succeeds, records
the failure, and stores [] for the failed competition. -/
theorem preload_tolerates_result_failures_witness :
    ∃ total loaded failed rsum w2,
      preloadAllData failingNetEnv 100 {} = (.done total loaded failed rsum, w2) ∧
      w2.cache.isLoaded = true ∧
      w2.cache.lastUpdated = some 100 ∧
      w2.cache.competitions =
        some (fetchAllCompetitions failingNetEnv.science failingNetEnv.gem) ∧
      w2.storagePersist = some
        { competitions := some (jsonCompetitionsFetch
            (fetchAllCompetitions failingNetEnv.science failingNetEnv.gem)),
          results := w2.cache.results, lastUpdated := some 100,
          version := appVersion } ∧
      (∀ c ∈ (fetchAllCompetitions failingNetEnv.science failingNetEnv.gem).science ++
             (fetchAllCompetitions failingNetEnv.science failingNetEnv.gem).gem,
        ∀ e, (fetchResultsInternal failingNetEnv 100 (jsStr c.id) c.category
            (World.dsCache {})).1 = .error e →
          alLookup (jsStr c.id) w2.cache.results = some [] ∧
          (⟨jsStr c.id, false, some e⟩ : ResultFetchSummary) ∈ rsum) ∧
      (∀ c ∈ (fetchAllCompetitions failingNetEnv.science failingNetEnv.gem).science ++
             (fetchAllCompetitions failingNetEnv.science failingNetEnv.gem).gem,
        ∀ v, (fetchResultsInternal failingNetEnv 100 (jsStr c.id) c.category
            (World.dsCache {})).1 = .ok v →
          alLookup (jsStr c.id) w2.cache.results = some v) :=
  preload_tolerates_result_failures failingNetEnv 100 {} rfl (by decide) (by decide)

/-! ## Aliasing model for the read accessors (src/unnamed/part_001,
lines 205-250).  JavaScript arrays are mutable objects; to state that the
getters hand out fresh copies, arrays live on an explicit heap and a
reference is an index into it.  Allocation appends a new array and never
moves existing ones, matching object identity in JavaScript. -/

/-- A heap of competition arrays. -/
abbrev CompHeap := List (List NormCompetition)

/-- Dereference an array (out-of-range references read as empty). -/
def readRef : CompHeap → Nat → List NormCompetition
  | [], _ => []
  | a :: _, 0 => a
  | _ :: t, n + 1 => readRef t n

/-- Replace the array an existing reference points at; models in-place
mutation such as push or splice (the new contents are arbitrary). -/
def writeRef : CompHeap → Nat → List NormCompetition → CompHeap
  | [], _, _ => []
  | _ :: t, 0, v => v :: t
  | a :: t, n + 1, v => a :: writeRef t n v

/-- Allocate a fresh array with the given contents, as a spread copy does. -/
def allocRef (h : CompHeap) (v : List NormCompetition) : CompHeap × Nat :=
  (h ++ [v], h.length)

/-- The manager on the heap: its three internal collections are references. -/
structure ManagerRefs where
  science : Nat
  gem : Nat
  all : Nat
deriving Repr, DecidableEq

/-- getAllCompetitions (lines 205-207): return a fresh array spread from the
internal all collection. -/
def getAllCompetitionsRef (h : CompHeap) (m : ManagerRefs) : CompHeap × Nat :=
  allocRef h (readRef h m.all)

/-- The contents getCompetitionsByCategory selects before spreading. -/
def byCategoryContents (h : CompHeap) (m : ManagerRefs) (category : String) :
    List NormCompetition :=
  if category = "" then []
  else
    let normalizedCategory := jsTrim (jsToLower category)
    if normalizedCategory = "academic" then readRef h m.gem
    else if normalizedCategory = "science" then readRef h m.science
    else if normalizedCategory = "gem" then readRef h m.gem
    else if normalizedCategory = "all" then readRef h m.all
    else []

/-- getCompetitionsByCategory (lines 214-225) on the heap: a fresh array with
the selected contents (an empty array literal is also a fresh array). -/
def getCompetitionsByCategoryRef (h : CompHeap) (m : ManagerRefs)
    (category : String) : CompHeap × Nat :=
  allocRef h (byCategoryContents h m category)

/-- getCompetitionsGrouped (lines 243-250) on the heap: three fresh arrays
spread from science, gem and (for the academic alias) gem again, reading the
untouched internal arrays. -/
def getCompetitionsGroupedRef (h : CompHeap) (m : ManagerRefs) :
    CompHeap × Nat × Nat × Nat :=
  (h ++ [readRef h m.science] ++ [readRef h m.gem] ++ [readRef h m.gem],
   h.length, h.length + 1, h.length + 2)

/-- Mutate the array returned by a getter, replacing its contents by an
arbitrary function of them (covers appending to and removing from it). -/
def mutateFresh (_h : CompHeap) (alloc : CompHeap × Nat)
    (f : List NormCompetition → List NormCompetition) : CompHeap :=
  writeRef alloc.1 alloc.2 (f (readRef alloc.1 alloc.2))

/-- Reading below the old length ignores appended arrays. -/
theorem readRef_append_lt (h h' : CompHeap) (r : Nat) (hr : r < h.length) :
    readRef (h ++ h') r = readRef h r := by
  induction h generalizing r with
  | nil => exact absurd hr (Nat.not_lt_zero r)
  | cons a t ih =>
    cases r with
    | zero => rfl
    | succ n => exact ih n (by simpa using hr)

/-- Reading the just-allocated reference yields the allocated contents. -/
theorem readRef_append_self (h : CompHeap) (v : List NormCompetition) :
    readRef (h ++ [v]) h.length = v := by
  induction h with
  | nil => rfl
  | cons a t ih => exact ih

/-- Writing one reference leaves every other reference unchanged. -/
theorem readRef_write_ne (h : CompHeap) (r : Nat) (v : List NormCompetition)
    (r' : Nat) (hne : r' ≠ r) : readRef (writeRef h r v) r' = readRef h r' := by
  induction h generalizing r r' with
  | nil => rfl
  | cons a t ih =>
    cases r with
    | zero =>
      cases r' with
      | zero => exact absurd rfl hne
      | succ n => rfl
    | succ m =>
      cases r' with
      | zero => rfl
      | succ n => exact ih m n (fun he => hne (by rw [he]))

/-- Mutating a freshly allocated array leaves every pre-existing array
unchanged. -/
theorem mutateFresh_preserves (h : CompHeap) (v : List NormCompetition)
    (f : List NormCompetition → List NormCompetition) (r : Nat)
    (hr : r < h.length) :
    readRef (mutateFresh h (allocRef h v) f) r = readRef h r := by
  unfold mutateFresh allocRef
  dsimp only
  rw [readRef_write_ne _ _ _ _ (by omega : r ≠ h.length)]
  exact readRef_append_lt h [v] r hr

/-- The selected category contents only depend on the internal arrays. -/
theorem byCategoryContents_congr (h h' : CompHeap) (m : ManagerRefs)
    (category : String)
    (hsc : readRef h' m.science = readRef h m.science)
    (hgm : readRef h' m.gem = readRef h m.gem)
    (hal : readRef h' m.all = readRef h m.all) :
    byCategoryContents h' m category = byCategoryContents h m category := by
  unfold byCategoryContents
  split_ifs <;> simp [hsc, hgm, hal]

/-- The three arrays of a grouped call read back their contents. -/
theorem readRef_stack3 (h : CompHeap) (a b c : List NormCompetition) :
    readRef (h ++ [a] ++ [b] ++ [c]) h.length = a ∧
    readRef (h ++ [a] ++ [b] ++ [c]) (h.length + 1) = b ∧
    readRef (h ++ [a] ++ [b] ++ [c]) (h.length + 2) = c := by
  refine ⟨?_, ?_, ?_⟩
  · rw [readRef_append_lt _ [c] _ (by simp), readRef_append_lt _ [b] _ (by simp)]
    exact readRef_append_self h a
  · rw [readRef_append_lt _ [c] _ (by simp)]
    have := readRef_append_self (h ++ [a]) b
    simpa using this
  · have := readRef_append_self ((h ++ [a]) ++ [b]) c
    simpa using this

/-- Reading below the old length ignores three appended arrays. -/
theorem readRef_stack3_lt (h : CompHeap) (a b c : List NormCompetition)
    (r : Nat) (hr : r < h.length) :
    readRef (h ++ [a] ++ [b] ++ [c]) r = readRef h r := by
  rw [readRef_append_lt _ [c] _ (by simp; omega),
    readRef_append_lt _ [b] _ (by simp; omega),
    readRef_append_lt _ [a] _ hr]

/-- C10: the arrays handed out by getAllCompetitions,
getCompetitionsByCategory and getCompetitionsGrouped are fresh copies:
replacing the contents of a returned array by anything (appending, removing)
leaves all three internal collections unchanged, and calling the getter again
afterwards returns the same contents as before the mutation. -/
theorem getter_arrays_are_fresh_copies
    (h : CompHeap) (m : ManagerRefs)
    (f : List NormCompetition → List NormCompetition)
    (hs : m.science < h.length) (hg : m.gem < h.length)
    (ha : m.all < h.length) :
    (readRef (mutateFresh h (getAllCompetitionsRef h m) f) m.science =
        readRef h m.science ∧
      readRef (mutateFresh h (getAllCompetitionsRef h m) f) m.gem =
        readRef h m.gem ∧
      readRef (mutateFresh h (getAllCompetitionsRef h m) f) m.all =
        readRef h m.all ∧
      readRef
        (getAllCompetitionsRef (mutateFresh h (getAllCompetitionsRef h m) f) m).1
        (getAllCompetitionsRef (mutateFresh h (getAllCompetitionsRef h m) f) m).2 =
        readRef h m.all) ∧
    (∀ category,
      readRef (mutateFresh h (getCompetitionsByCategoryRef h m category) f)
          m.science = readRef h m.science ∧
      readRef (mutateFresh h (getCompetitionsByCategoryRef h m category) f)
          m.gem = readRef h m.gem ∧
      readRef (mutateFresh h (getCompetitionsByCategoryRef h m category) f)
          m.all = readRef h m.all ∧
      readRef
        (getCompetitionsByCategoryRef
          (mutateFresh h (getCompetitionsByCategoryRef h m category) f) m category).1
        (getCompetitionsByCategoryRef
          (mutateFresh h (getCompetitionsByCategoryRef h m category) f) m category).2 =
        byCategoryContents h m category) ∧
    (∀ r, (r = (getCompetitionsGroupedRef h m).2.1 ∨
        r = (getCompetitionsGroupedRef h m).2.2.1 ∨
        r = (getCompetitionsGroupedRef h m).2.2.2) →
      readRef (writeRef (getCompetitionsGroupedRef h m).1 r
          (f (readRef (getCompetitionsGroupedRef h m).1 r))) m.science =
        readRef h m.science ∧
      readRef (writeRef (getCompetitionsGroupedRef h m).1 r
          (f (readRef (getCompetitionsGroupedRef h m).1 r))) m.gem =
        readRef h m.gem ∧
      readRef (writeRef (getCompetitionsGroupedRef h m).1 r
          (f (readRef (getCompetitionsGroupedRef h m).1 r))) m.all =
        readRef h m.all ∧
      readRef
        (getCompetitionsGroupedRef (writeRef (getCompetitionsGroupedRef h m).1 r
          (f (readRef (getCompetitionsGroupedRef h m).1 r))) m).1
        (getCompetitionsGroupedRef (writeRef (getCompetitionsGroupedRef h m).1 r
          (f (readRef (getCompetitionsGroupedRef h m).1 r))) m).2.1 =
        readRef h m.science ∧
      readRef
        (getCompetitionsGroupedRef (writeRef (getCompetitionsGroupedRef h m).1 r
          (f (readRef (getCompetitionsGroupedRef h m).1 r))) m).1
        (getCompetitionsGroupedRef (writeRef (getCompetitionsGroupedRef h m).1 r
          (f (readRef (getCompetitionsGroupedRef h m).1 r))) m).2.2.1 =
        readRef h m.gem) := by
  refine ⟨⟨?_, ?_, ?_, ?_⟩, ?_, ?_⟩
  · exact mutateFresh_preserves h (readRef h m.all) f m.science hs
  · exact mutateFresh_preserves h (readRef h m.all) f m.gem hg
  · exact mutateFresh_preserves h (readRef h m.all) f m.all ha
  · exact (readRef_append_self _ _).trans
      (mutateFresh_preserves h (readRef h m.all) f m.all ha)
  · intro category
    refine ⟨?_, ?_, ?_, ?_⟩
    · exact mutateFresh_preserves h _ f m.science hs
    · exact mutateFresh_preserves h _ f m.gem hg
    · exact mutateFresh_preserves h _ f m.all ha
    · exact (readRef_append_self _ _).trans
        (byCategoryContents_congr h _ m category
          (mutateFresh_preserves h _ f m.science hs)
          (mutateFresh_preserves h _ f m.gem hg)
          (mutateFresh_preserves h _ f m.all ha))
  · intro r hcases
    have hrge : h.length ≤ r := by
      rcases hcases with rfl | rfl | rfl <;>
        dsimp [getCompetitionsGroupedRef] <;> omega
    have hpre : ∀ x, x < h.length →
        readRef (writeRef (getCompetitionsGroupedRef h m).1 r
          (f (readRef (getCompetitionsGroupedRef h m).1 r))) x = readRef h x := by
      intro x hx
      rw [readRef_write_ne _ _ _ _ (by omega : x ≠ r)]
      exact readRef_stack3_lt h _ _ _ x hx
    refine ⟨hpre m.science hs, hpre m.gem hg, hpre m.all ha, ?_, ?_⟩
    · exact ((readRef_stack3 _ _ _ _).1).trans (hpre m.science hs)
    · exact ((readRef_stack3 _ _ _ _).2.1).trans (hpre m.gem hg)

/-- Witness for C10: a three-array heap with the manager pointing at arrays
0, 1 and 2; mutating the copy returned by getAllCompetitions leaves all three
internal arrays unchanged and the second call returns the old contents. -/
theorem getter_arrays_are_fresh_copies_witness :
    readRef (mutateFresh [[], [], []] (getAllCompetitionsRef [[], [], []] ⟨0, 1, 2⟩)
        (fun l => l ++ l)) 0 = readRef [[], [], []] 0 ∧
    readRef (mutateFresh [[], [], []] (getAllCompetitionsRef [[], [], []] ⟨0, 1, 2⟩)
        (fun l => l ++ l)) 1 = readRef [[], [], []] 1 ∧
    readRef (mutateFresh [[], [], []] (getAllCompetitionsRef [[], [], []] ⟨0, 1, 2⟩)
        (fun l => l ++ l)) 2 = readRef [[], [], []] 2 ∧
    readRef
      (getAllCompetitionsRef (mutateFresh [[], [], []]
        (getAllCompetitionsRef [[], [], []] ⟨0, 1, 2⟩) (fun l => l ++ l)) ⟨0, 1, 2⟩).1
      (getAllCompetitionsRef (mutateFresh [[], [], []]
        (getAllCompetitionsRef [[], [], []] ⟨0, 1, 2⟩) (fun l => l ++ l)) ⟨0, 1, 2⟩).2 =
      readRef [[], [], []] 2 :=
  (getter_arrays_are_fresh_copies [[], [], []] ⟨0, 1, 2⟩ (fun l => l ++ l)
    (by decide) (by decide) (by decide)).1
